import Mathlib

/-!
Shallow embedding of the DotNation crowdfunding settlement engine
(`donation_platform/lib.rs`, ink! contract `donation_platform_v2`).

Machine integers are modelled as `Nat` with explicit bounds where overflow
matters: `Balance` is `u128`, counters are `u32`, timestamps are `u64`.
Checked arithmetic (`checked_add` …) returns `Option`; `saturating_*` clamps
at the type maximum; unchecked arithmetic on `u128`/`u64`/`u32` wraps.

Storage `Mapping`s are modelled as functions.  `refund_claimed` and
`unique_donors` are modelled as total `Bool`-valued maps (every read in the
source is `get(..).unwrap_or(false)`), and `campaign_donations` as a total
`List`-valued map (every read is `unwrap_or_default()` or treats `None` as
the empty list).  `campaigns`, `matching_rounds` and `milestone_votes` keep
the `Option` of the source, whose code distinguishes key presence.

The host environment (caller identity, block timestamp, transferred value,
the native currency transfer primitive) is an explicit `Env` record; a
transfer to account `a` of amount `v` succeeds iff `Env.transfer_ok a v`.
Every entry point returns an `Outcome`: the `Result` value, the post state,
and the list of currency transfers actually performed, in order.
-/

namespace DotNation

/-- Maximum value bound for `u128` arithmetic: values are `< U128`. -/
def U128 : ℕ := 2 ^ 128

/-- Maximum value bound for `u64` arithmetic. -/
def U64 : ℕ := 2 ^ 64

/-- Maximum value bound for `u32` arithmetic. -/
def U32 : ℕ := 2 ^ 32

/-- Rust `u128::checked_add`. -/
def checked_add128 (a b : ℕ) : Option ℕ :=
  if a + b < U128 then some (a + b) else none

/-- Rust `u32::checked_add`. -/
def checked_add32 (a b : ℕ) : Option ℕ :=
  if a + b < U32 then some (a + b) else none

/-- Rust `u128::checked_mul`. -/
def checked_mul128 (a b : ℕ) : Option ℕ :=
  if a * b < U128 then some (a * b) else none

/-- Rust `u128::checked_div` (fails only on division by zero). -/
def checked_div128 (a b : ℕ) : Option ℕ :=
  if b = 0 then none else some (a / b)

/-- Rust `u128::checked_sub`. -/
def checked_sub128 (a b : ℕ) : Option ℕ :=
  if b ≤ a then some (a - b) else none

/-- Rust `u128::saturating_add`. -/
def saturating_add128 (a b : ℕ) : ℕ :=
  min (a + b) (U128 - 1)

/-- Rust `u128::saturating_mul`. -/
def saturating_mul128 (a b : ℕ) : ℕ :=
  min (a * b) (U128 - 1)

/-- Wrapping (release-mode) `u128` arithmetic result. -/
def wrap128 (a : ℕ) : ℕ := a % U128

/-- Wrapping (release-mode) `u64` arithmetic result. -/
def wrap64 (a : ℕ) : ℕ := a % U64

/-- Wrapping (release-mode) `u32` arithmetic result. -/
def wrap32 (a : ℕ) : ℕ := a % U32

/-- Mapping/list-map insertion: point update of a function. -/
def mapInsert {α β : Type} [DecidableEq α] (f : α → β) (k : α) (v : β) : α → β :=
  fun k2 => if k2 = k then v else f k2

/-- Error enum of the contract (`enum Error`). -/
inductive Error where
  | CampaignNotFound
  | CampaignNotActive
  | GoalReached
  | DeadlinePassed
  | NotCampaignOwner
  | GoalNotReached
  | WithdrawalFailed
  | InvalidDonationAmount
  | InvalidTitle
  | InvalidDescription
  | InvalidGoal
  | InvalidBeneficiary
  | InvalidDeadline
  | FundsAlreadyWithdrawn
  | InsufficientFunds
  | BatchOperationFailed
  | BatchSizeTooLarge
  | ReentrantCall
  | CampaignFailed
  | NoDonationFound
  | RefundAlreadyClaimed
  | TransferFailed
  | NftMintingFailed
  | InsufficientMatchingPool
  | NoActiveRound
  | RoundEnded
deriving DecidableEq, Repr

/-- Lifecycle state of a campaign (`enum CampaignState`). -/
inductive CampaignState where
  | Active
  | Successful
  | Failed
  | Withdrawn
deriving DecidableEq, Repr, Fintype

/-- A single donation (`struct Donation`). -/
structure Donation where
  donor : ℕ
  amount : ℕ
  timestamp : ℕ
deriving DecidableEq, Repr

/-- A milestone for DAO voting (`struct Milestone`). -/
structure Milestone where
  description : String
  percentage : ℕ
  deadline : ℕ
  votes_for : ℕ
  votes_against : ℕ
  released : Bool
  voting_active : Bool
deriving DecidableEq, Repr

/-- A fundraising campaign (`struct Campaign`). -/
structure Campaign where
  id : ℕ
  owner : ℕ
  title : String
  description : String
  goal : ℕ
  raised : ℕ
  deadline : ℕ
  state : CampaignState
  beneficiary : ℕ
  donation_count : ℕ
  matching_round : Option ℕ
  matching_amount : ℕ
  milestones : List Milestone
  uses_milestones : Bool
deriving DecidableEq, Repr

/-- Campaign details with paginated donations (`struct CampaignDetails`). -/
structure CampaignDetails where
  campaign : Campaign
  donations : List Donation
  total_donations : ℕ
deriving DecidableEq, Repr

/-- Result of a batch operation (`struct BatchResult`). -/
structure BatchResult where
  successful : ℕ
  failed : ℕ
  success_ids : List ℕ
deriving DecidableEq, Repr

/-- A quadratic-funding matching round (`struct MatchingRound`). -/
structure MatchingRound where
  id : ℕ
  pool_amount : ℕ
  end_time : ℕ
  distributed : Bool
  campaign_ids : List ℕ
deriving DecidableEq, Repr

/-- Contract storage (`struct DonationPlatformV2`). -/
structure Platform where
  campaigns : ℕ → Option Campaign
  campaign_donations : ℕ → List Donation
  refund_claimed : ℕ × ℕ → Bool
  campaign_count : ℕ
  admin : ℕ
  locked : Bool
  version : ℕ
  max_batch_size : ℕ
  nft_contract : Option ℕ
  nft_enabled : Bool
  matching_pool_balance : ℕ
  current_round : Option ℕ
  matching_rounds : ℕ → Option MatchingRound
  round_count : ℕ
  unique_donors : ℕ × ℕ → Bool
  milestone_votes : ℕ × ℕ × ℕ → Option ℕ
  treasury_account : ℕ

/-- Host environment supplied to one entry-point call. -/
structure Env where
  caller : ℕ
  block_timestamp : ℕ
  transferred_value : ℕ
  transfer_ok : ℕ → ℕ → Bool

/-- Result of one entry-point call: return value, post state, and the
currency transfers performed (in order). -/
structure Outcome (α : Type) where
  result : Except Error α
  state : Platform
  transfers : List (ℕ × ℕ)

/-- Whether an outcome succeeded. -/
def Outcome.isOk {α : Type} (o : Outcome α) : Bool :=
  match o.result with
  | .ok _ => true
  | .error _ => false

/-- Minimum donation amount (`const MIN_DONATION`). -/
def MIN_DONATION : ℕ := 1000000

/-- Constructor `new()`: fresh engine with the given caller as admin and
treasury. -/
def new (caller : ℕ) : Platform where
  campaigns := fun _ => none
  campaign_donations := fun _ => []
  refund_claimed := fun _ => false
  campaign_count := 0
  admin := caller
  locked := false
  version := 2
  max_batch_size := 50
  nft_contract := none
  nft_enabled := false
  matching_pool_balance := 0
  current_round := none
  matching_rounds := fun _ => none
  round_count := 0
  unique_donors := fun _ => false
  milestone_votes := fun _ => none
  treasury_account := caller

/-- Constructor `migrate_from_v1(campaign_count)`. -/
def migrate_from_v1 (caller campaign_count : ℕ) : Platform :=
  { new caller with campaign_count := campaign_count }

/-- Entry point `create_campaign`.  The `campaign_count += 1` of the source
is an unchecked `u32` increment; ink! release builds enable overflow checks
(the contract documents integer-overflow protection), so at `u32::MAX` the
increment panics, the host reverts the whole call, and no wrapped state is
ever committed.  The increment is therefore modelled on `ℕ`: every state
the chain can commit is a state of this model, and the model's extra states
(counters beyond `u32::MAX`) arise from calls that on-chain would trap
without effect.  The same applies to `round_count` below. -/
def create_campaign (env : Env) (s : Platform) (title description : String)
    (goal deadline beneficiary : ℕ) : Outcome ℕ :=
  let caller := env.caller
  let current_time := env.block_timestamp
  if title.isEmpty ∨ title.length > 100 then ⟨.error .InvalidTitle, s, []⟩
  else if description.length > 1000 then ⟨.error .InvalidDescription, s, []⟩
  else if goal = 0 ∨ goal > 1000000000000000 then ⟨.error .InvalidGoal, s, []⟩
  else if beneficiary = 0 then ⟨.error .InvalidBeneficiary, s, []⟩
  else
    let min_deadline := wrap64 (current_time + 3600000)
    let max_deadline := wrap64 (current_time + 31536000000)
    if deadline ≤ min_deadline ∨ deadline > max_deadline then
      ⟨.error .InvalidDeadline, s, []⟩
    else
      let campaign_id := s.campaign_count
      let campaign : Campaign :=
        { id := campaign_id
          owner := caller
          title := title
          description := description
          goal := goal
          raised := 0
          deadline := deadline
          state := .Active
          beneficiary := beneficiary
          donation_count := 0
          matching_round := s.current_round
          matching_amount := 0
          milestones := []
          uses_milestones := false }
      ⟨.ok campaign_id,
        { s with campaigns := mapInsert s.campaigns campaign_id (some campaign)
                 campaign_donations := mapInsert s.campaign_donations campaign_id []
                 campaign_count := s.campaign_count + 1 }, []⟩

/-- Loop body shared by `create_campaigns_batch`: run the creations in
order, tallying successes and failures. -/
def create_batch_loop (env : Env) :
    List (String × String × ℕ × ℕ × ℕ) → Platform → BatchResult → Outcome BatchResult
  | [], s, acc => ⟨.ok acc, s, []⟩
  | (title, description, goal, deadline, beneficiary) :: rest, s, acc =>
    let o := create_campaign env s title description goal deadline beneficiary
    match o.result with
    | .ok id =>
        create_batch_loop env rest o.state
          { acc with successful := acc.successful + 1
                     success_ids := acc.success_ids ++ [id] }
    | .error _ =>
        create_batch_loop env rest o.state { acc with failed := acc.failed + 1 }

/-- Entry point `create_campaigns_batch` (no reentrancy lock in the source). -/
def create_campaigns_batch (env : Env) (s : Platform)
    (campaigns_data : List (String × String × ℕ × ℕ × ℕ)) : Outcome BatchResult :=
  if campaigns_data.length > s.max_batch_size then ⟨.error .BatchSizeTooLarge, s, []⟩
  else create_batch_loop env campaigns_data s ⟨0, 0, []⟩

/-- Internal `process_donation` (fee transfer, validation, ledger update).
The best-effort NFT-receipt mint at the end of the source function is an
external side call with `transferred_value(0)` and swallowed failure: it
moves no currency and writes no engine state, so it has no model here. -/
def process_donation (env : Env) (s : Platform) (campaign_id donation_amount : ℕ) :
    Outcome Unit :=
  let caller := env.caller
  let current_time := env.block_timestamp
  if donation_amount < MIN_DONATION then ⟨.error .InvalidDonationAmount, s, []⟩
  else if donation_amount > 100000000000000 then ⟨.error .InvalidDonationAmount, s, []⟩
  else
    match (checked_mul128 donation_amount 3).bind (fun m => checked_div128 m 100) with
    | none => ⟨.error .InvalidDonationAmount, s, []⟩
    | some fee =>
      if fee > 0 ∧ env.transfer_ok s.treasury_account fee = false then
        ⟨.error .TransferFailed, s, []⟩
      else
        let fee_transfers := if fee > 0 then [(s.treasury_account, fee)] else []
        match s.campaigns campaign_id with
        | none => ⟨.error .CampaignNotFound, s, fee_transfers⟩
        | some campaign =>
          if campaign.state ≠ .Active then ⟨.error .CampaignNotActive, s, fee_transfers⟩
          else if current_time > campaign.deadline then
            ⟨.error .DeadlinePassed,
              { s with campaigns :=
                  mapInsert s.campaigns campaign_id (some { campaign with state := .Failed }) },
              fee_transfers⟩
          else
            let donation : Donation :=
              { donor := caller, amount := donation_amount, timestamp := current_time }
            match checked_add128 campaign.raised donation_amount with
            | none => ⟨.error .InvalidDonationAmount, s, fee_transfers⟩
            | some raised2 =>
              match checked_add32 campaign.donation_count 1 with
              | none => ⟨.error .InvalidDonationAmount, s, fee_transfers⟩
              | some count2 =>
                let campaign2 :=
                  { campaign with
                      raised := raised2
                      donation_count := count2
                      state := if raised2 ≥ campaign.goal then .Successful else campaign.state }
                let s2 := { s with campaigns := mapInsert s.campaigns campaign_id (some campaign2) }
                let donations := s2.campaign_donations campaign_id
                let s3 :=
                  { s2 with campaign_donations :=
                      mapInsert s2.campaign_donations campaign_id (donations ++ [donation]) }
                let s4 :=
                  if s3.unique_donors (campaign_id, caller) = false then
                    { s3 with unique_donors :=
                        mapInsert s3.unique_donors (campaign_id, caller) true }
                  else s3
                ⟨.ok (), s4, fee_transfers⟩

/-- Entry point `donate`: reentrancy guard around `process_donation`. -/
def donate (env : Env) (s : Platform) (campaign_id : ℕ) : Outcome Unit :=
  if s.locked then ⟨.error .ReentrantCall, s, []⟩
  else
    let o := process_donation env { s with locked := true } campaign_id env.transferred_value
    ⟨o.result, { o.state with locked := false }, o.transfers⟩

/-- Internal `process_withdrawal`. -/
def process_withdrawal (env : Env) (s : Platform) (campaign_id : ℕ) : Outcome Unit :=
  match s.campaigns campaign_id with
  | none => ⟨.error .CampaignNotFound, s, []⟩
  | some campaign =>
    if env.caller ≠ campaign.owner ∧ env.caller ≠ s.admin then
      ⟨.error .NotCampaignOwner, s, []⟩
    else if campaign.state = .Withdrawn then ⟨.error .FundsAlreadyWithdrawn, s, []⟩
    else
      let is_successful := campaign.state = .Successful
      let deadline_passed := env.block_timestamp > campaign.deadline
      if ¬ is_successful ∧ ¬ deadline_passed then ⟨.error .GoalNotReached, s, []⟩
      else if campaign.raised = 0 ∧ campaign.matching_amount = 0 then
        ⟨.ok (),
          { s with campaigns :=
              mapInsert s.campaigns campaign_id (some { campaign with state := .Failed }) }, []⟩
      else
        match (checked_mul128 campaign.raised 3).bind (fun m => checked_div128 m 100) with
        | none => ⟨.error .WithdrawalFailed, s, []⟩
        | some fee_total =>
          match checked_sub128 campaign.raised fee_total with
          | none => ⟨.error .WithdrawalFailed, s, []⟩
          | some net_raised =>
            match checked_add128 net_raised campaign.matching_amount with
            | none => ⟨.error .WithdrawalFailed, s, []⟩
            | some total_amount =>
              if total_amount > 0 ∧ env.transfer_ok campaign.beneficiary total_amount = false then
                ⟨.error .WithdrawalFailed, s, []⟩
              else
                ⟨.ok (),
                  { s with campaigns :=
                      mapInsert s.campaigns campaign_id (some { campaign with state := .Withdrawn }) },
                  if total_amount > 0 then [(campaign.beneficiary, total_amount)] else []⟩

/-- Entry point `withdraw_funds`: reentrancy guard around `process_withdrawal`. -/
def withdraw_funds (env : Env) (s : Platform) (campaign_id : ℕ) : Outcome Unit :=
  if s.locked then ⟨.error .ReentrantCall, s, []⟩
  else
    let o := process_withdrawal env { s with locked := true } campaign_id
    ⟨o.result, { o.state with locked := false }, o.transfers⟩

/-- Loop body shared by `withdraw_funds_batch`. -/
def withdraw_batch_loop (env : Env) :
    List ℕ → Platform → BatchResult → List (ℕ × ℕ) → Outcome BatchResult
  | [], s, acc, trs => ⟨.ok acc, s, trs⟩
  | campaign_id :: rest, s, acc, trs =>
    let o := process_withdrawal env s campaign_id
    match o.result with
    | .ok _ =>
        withdraw_batch_loop env rest o.state
          { acc with successful := acc.successful + 1
                     success_ids := acc.success_ids ++ [campaign_id] }
          (trs ++ o.transfers)
    | .error _ =>
        withdraw_batch_loop env rest o.state { acc with failed := acc.failed + 1 }
          (trs ++ o.transfers)

/-- Entry point `withdraw_funds_batch`: size check, then one lock for the
whole batch, inner operations via the lock-free `process_withdrawal`. -/
def withdraw_funds_batch (env : Env) (s : Platform) (campaign_ids : List ℕ) :
    Outcome BatchResult :=
  if campaign_ids.length > s.max_batch_size then ⟨.error .BatchSizeTooLarge, s, []⟩
  else if s.locked then ⟨.error .ReentrantCall, s, []⟩
  else
    let o := withdraw_batch_loop env campaign_ids { s with locked := true } ⟨0, 0, []⟩ []
    ⟨o.result, { o.state with locked := false }, o.transfers⟩

/-- Entry point `cancel_campaign` (no reentrancy lock in the source). -/
def cancel_campaign (env : Env) (s : Platform) (campaign_id : ℕ) : Outcome Unit :=
  match s.campaigns campaign_id with
  | none => ⟨.error .CampaignNotFound, s, []⟩
  | some campaign =>
    if env.caller ≠ campaign.owner ∧ env.caller ≠ s.admin then
      ⟨.error .NotCampaignOwner, s, []⟩
    else if campaign.state ≠ .Active then ⟨.error .CampaignNotActive, s, []⟩
    else
      ⟨.ok (),
        { s with campaigns :=
            mapInsert s.campaigns campaign_id (some { campaign with state := .Failed }) }, []⟩

/-- Checked sum of the caller's donation amounts, as accumulated by the
`claim_refund` loop (`checked_add` inside the loop). -/
def donor_sum_checked (donations : List Donation) (caller : ℕ) : Option ℕ :=
  donations.foldl
    (fun acc d =>
      acc.bind (fun a => if d.donor = caller then checked_add128 a d.amount else some a))
    (some 0)

/-- Entry point `claim_refund`. -/
def claim_refund (env : Env) (s : Platform) (campaign_id : ℕ) : Outcome Unit :=
  if s.locked then ⟨.error .ReentrantCall, s, []⟩
  else
    let s1 := { s with locked := true }
    let caller := env.caller
    let o : Outcome Unit :=
      match s1.campaigns campaign_id with
      | none => ⟨.error .CampaignNotFound, s1, []⟩
      | some campaign =>
        if campaign.state ≠ .Failed then ⟨.error .CampaignFailed, s1, []⟩
        else if s1.refund_claimed (campaign_id, caller) then
          ⟨.error .RefundAlreadyClaimed, s1, []⟩
        else
          match donor_sum_checked (s1.campaign_donations campaign_id) caller with
          | none => ⟨.error .InvalidDonationAmount, s1, []⟩
          | some refund_amount =>
            if refund_amount = 0 then ⟨.error .NoDonationFound, s1, []⟩
            else
              let s2 :=
                { s1 with refund_claimed :=
                    mapInsert s1.refund_claimed (campaign_id, caller) true }
              if env.transfer_ok caller refund_amount then
                ⟨.ok (), s2, [(caller, refund_amount)]⟩
              else
                ⟨.error .TransferFailed,
                  { s2 with refund_claimed :=
                      mapInsert s2.refund_claimed (campaign_id, caller) false }, []⟩
    ⟨o.result, { o.state with locked := false }, o.transfers⟩

/-- Read accessor `get_campaign`. -/
def get_campaign (s : Platform) (campaign_id : ℕ) : Option Campaign :=
  s.campaigns campaign_id

/-- Rust slice `l[start..stop]` on a `Vec`: `none` models the slice-range
panic raised when `start > stop` or `stop > l.len()`. -/
def rust_slice {α : Type} (l : List α) (start stop : ℕ) : Option (List α) :=
  if start ≤ stop ∧ stop ≤ l.length then some ((l.take stop).drop start) else none

/-- Read accessor `get_campaign_details` with paginated donations.  The
outer `Option` models trapping: `none` is a panic, `some r` is a normal
return of `r`. -/
def get_campaign_details (s : Platform) (campaign_id offset limit : ℕ) :
    Option (Option CampaignDetails) :=
  match s.campaigns campaign_id with
  | none => some none
  | some campaign =>
    let all_donations := s.campaign_donations campaign_id
    let start := offset
    let stop := min (offset + limit) all_donations.length
    match rust_slice all_donations start stop with
    | none => none
    | some donations =>
      some (some
        { campaign := campaign
          donations := donations
          total_donations := if all_donations.length < U32 then all_donations.length else 0 })

/-- Entry point `set_max_batch_size` (admin only). -/
def set_max_batch_size (env : Env) (s : Platform) (size : ℕ) : Outcome Unit :=
  if env.caller ≠ s.admin then ⟨.error .NotCampaignOwner, s, []⟩
  else ⟨.ok (), { s with max_batch_size := size }, []⟩

/-- Entry point `set_nft_contract` (admin only). -/
def set_nft_contract (env : Env) (s : Platform) (a : ℕ) : Outcome Unit :=
  if env.caller ≠ s.admin then ⟨.error .NotCampaignOwner, s, []⟩
  else ⟨.ok (), { s with nft_contract := some a }, []⟩

/-- Entry point `set_nft_enabled` (admin only). -/
def set_nft_enabled (env : Env) (s : Platform) (enabled : Bool) : Outcome Unit :=
  if env.caller ≠ s.admin then ⟨.error .NotCampaignOwner, s, []⟩
  else ⟨.ok (), { s with nft_enabled := enabled }, []⟩

/-- Entry point `fund_matching_pool` (payable). -/
def fund_matching_pool (env : Env) (s : Platform) : Outcome Unit :=
  let amount := env.transferred_value
  if amount = 0 then ⟨.error .InvalidDonationAmount, s, []⟩
  else
    match checked_add128 s.matching_pool_balance amount with
    | none => ⟨.error .InvalidDonationAmount, s, []⟩
    | some b => ⟨.ok (), { s with matching_pool_balance := b }, []⟩

/-- Entry point `create_matching_round` (admin only).  The source inserts
the round, sets `current_round` and bumps `round_count` before the
`checked_sub` on the pool balance; that order is kept here. -/
def create_matching_round (env : Env) (s : Platform) (pool_amount duration : ℕ) :
    Outcome ℕ :=
  if env.caller ≠ s.admin then ⟨.error .NotCampaignOwner, s, []⟩
  else if pool_amount > s.matching_pool_balance then
    ⟨.error .InsufficientMatchingPool, s, []⟩
  else
    let round_id := s.round_count
    let end_time := wrap64 (env.block_timestamp + duration)
    let round : MatchingRound :=
      { id := round_id, pool_amount := pool_amount, end_time := end_time,
        distributed := false, campaign_ids := [] }
    let s1 :=
      { s with matching_rounds := mapInsert s.matching_rounds round_id (some round)
               current_round := some round_id
               round_count := s.round_count + 1 }
    match checked_sub128 s1.matching_pool_balance pool_amount with
    | none => ⟨.error .InsufficientMatchingPool, s1, []⟩
    | some b => ⟨.ok round_id, { s1 with matching_pool_balance := b }, []⟩

/-- The bare Babylonian iteration on ℕ (Rust
`while y < x { x = y; y = (x + n / x) / 2; }` returning `x`): the value
the source loop computes whenever its `u128` additions do not overflow.
`sqrt_loop_eq` below shows the checked loop agrees with it on every input
the source reaches below `u128::MAX`. -/
def sqrt_nat_loop (n x y : ℕ) : ℕ :=
  if h : y < x then sqrt_nat_loop n y ((y + n / y) / 2) else x
termination_by x

/-- Total Babylonian square root on ℕ: the value `fn sqrt` returns whenever
it returns (`sqrt_eq_some` below). -/
def sqrt_nat (n : ℕ) : ℕ :=
  if n = 0 then 0 else sqrt_nat_loop n n ((n + 1) / 2)

/-- Loop of the internal integer square root (`fn sqrt`), with the `u128`
addition `x + n / x` overflow-checked (`none` = panic/revert).  Inside the
loop `x ≥ 1` always holds (the source reaches it only with `n ≥ 1`, and the
iterate stays positive), so `n / x` never divides by zero. -/
def sqrt_loop (n x y : ℕ) : Option ℕ :=
  if _h : y < x then
    match checked_add128 y (n / y) with
    | none => none
    | some t => sqrt_loop n y (t / 2)
  else some x
termination_by x

/-- Internal integer square root (`fn sqrt`): Newton/Babylonian iteration
starting from `x = n`, `y = (x + 1) / 2`, with both `u128` additions
overflow-checked (`none` = panic/revert).  The initial `x + 1` overflows
exactly at `n = u128::MAX`. -/
def sqrt (n : ℕ) : Option ℕ :=
  if n = 0 then some 0
  else
    match checked_add128 n 1 with
    | none => none
    | some t => sqrt_loop n n (t / 2)

/-- Internal `calculate_qf_score`: square of the saturating sum of the
integer square roots of the campaign's donation amounts.  The source's
`Self::sqrt` calls trap only at `amount = u128::MAX` (where the whole call
reverts); on every returning input they yield `sqrt_nat` (`sqrt_eq_some`),
which the score model sums. -/
def calculate_qf_score (s : Platform) (campaign_id : ℕ) : ℕ :=
  let donations := s.campaign_donations campaign_id
  let sum_of_square_roots :=
    donations.foldl (fun acc d => saturating_add128 acc (sqrt_nat d.amount)) 0
  saturating_mul128 sum_of_square_roots sum_of_square_roots

/-- First loop of `calculate_and_distribute_matching`: collect
`(campaign_id, score)` pairs for non-Failed campaigns of the round with
positive score, and the saturating total of those scores. -/
def distribute_scores (s : Platform) (round_id : ℕ) : List (ℕ × ℕ) × ℕ :=
  (List.range s.campaign_count).foldl
    (fun acc campaign_id =>
      match s.campaigns campaign_id with
      | some campaign =>
        if campaign.matching_round = some round_id ∧ campaign.state ≠ .Failed then
          let qf_score := calculate_qf_score s campaign_id
          if qf_score > 0 then
            (acc.1 ++ [(campaign_id, qf_score)], saturating_add128 acc.2 qf_score)
          else acc
        else acc
      | none => acc)
    ([], 0)

/-- Second loop of `calculate_and_distribute_matching`: write each listed
campaign's proportional matching share. -/
def distribute_write (pool total : ℕ) : List (ℕ × ℕ) → Platform → Platform
  | [], s => s
  | (campaign_id, qf_score) :: rest, s =>
    let s2 :=
      match s.campaigns campaign_id with
      | some campaign =>
        let campaign2 := { campaign with matching_amount := wrap128 (qf_score * pool) / total }
        { s with campaigns := mapInsert s.campaigns campaign_id (some campaign2) }
      | none => s
    distribute_write pool total rest s2

/-- Entry point `calculate_and_distribute_matching` (admin only, after the
round end, once). -/
def calculate_and_distribute_matching (env : Env) (s : Platform) (round_id : ℕ) :
    Outcome Unit :=
  if env.caller ≠ s.admin then ⟨.error .NotCampaignOwner, s, []⟩
  else
    match s.matching_rounds round_id with
    | none => ⟨.error .CampaignNotFound, s, []⟩
    | some round =>
      if round.distributed then ⟨.error .FundsAlreadyWithdrawn, s, []⟩
      else if env.block_timestamp < round.end_time then ⟨.error .DeadlinePassed, s, []⟩
      else
        let scores := distribute_scores s round_id
        let s2 :=
          if scores.2 > 0 then distribute_write round.pool_amount scores.2 scores.1 s
          else s
        let s3 :=
          { s2 with matching_rounds :=
              mapInsert s2.matching_rounds round_id (some { round with distributed := true }) }
        let s4 := if s3.current_round = some round_id then { s3 with current_round := none } else s3
        ⟨.ok (), s4, []⟩

/-- Read accessor `get_estimated_matching`. -/
def get_estimated_matching (s : Platform) (campaign_id : ℕ) : ℕ :=
  match s.campaigns campaign_id with
  | none => 0
  | some campaign =>
    match campaign.matching_round with
    | none => 0
    | some round_id =>
      match s.matching_rounds round_id with
      | none => 0
      | some round =>
        if round.distributed then campaign.matching_amount
        else
          let campaign_score := calculate_qf_score s campaign_id
          if campaign_score = 0 then 0
          else
            let total_score :=
              (List.range s.campaign_count).foldl
                (fun total id =>
                  match s.campaigns id with
                  | some c =>
                    if c.matching_round = some round_id then
                      saturating_add128 total (calculate_qf_score s id)
                    else total
                  | none => total)
                0
            if total_score = 0 then 0
            else wrap128 (campaign_score * round.pool_amount) / total_score

/-- Milestone lookup used after an index-bound check has been established;
the default value is never reached in those uses. -/
def getMilestone (ms : List Milestone) (i : ℕ) : Milestone :=
  (ms[i]?).getD { description := "", percentage := 0, deadline := 0,
                  votes_for := 0, votes_against := 0,
                  released := false, voting_active := false }

/-- Loop of `add_milestones` building the milestone list; aborts with
`InvalidDescription` on a bad description. -/
def build_milestones (current_time : ℕ) :
    List (String × ℕ × ℕ) → Except Error (List Milestone)
  | [] => .ok []
  | (description, percentage, days) :: rest =>
    if description.isEmpty ∨ description.length > 200 then .error .InvalidDescription
    else
      match build_milestones current_time rest with
      | .error e => .error e
      | .ok ms =>
        .ok ({ description := description
               percentage := percentage
               deadline := wrap64 (current_time + days * 24 * 60 * 60 * 1000)
               votes_for := 0
               votes_against := 0
               released := false
               voting_active := false } :: ms)

/-- Entry point `add_milestones` (owner only, campaign still Active). -/
def add_milestones (env : Env) (s : Platform) (campaign_id : ℕ)
    (milestones_data : List (String × ℕ × ℕ)) : Outcome Unit :=
  let caller := env.caller
  let current_time := env.block_timestamp
  match s.campaigns campaign_id with
  | none => ⟨.error .CampaignNotFound, s, []⟩
  | some campaign =>
    if caller ≠ campaign.owner then ⟨.error .NotCampaignOwner, s, []⟩
    else if campaign.state ≠ .Active then ⟨.error .CampaignNotActive, s, []⟩
    else
      let total_percentage :=
        milestones_data.foldl (fun acc p => wrap32 (acc + p.2.1)) 0
      if total_percentage ≠ 10000 then ⟨.error .InvalidGoal, s, []⟩
      else
        match build_milestones current_time milestones_data with
        | .error e => ⟨.error e, s, []⟩
        | .ok milestones =>
          let campaign2 := { campaign with milestones := milestones, uses_milestones := true }
          ⟨.ok (),
            { s with campaigns := mapInsert s.campaigns campaign_id (some campaign2) }, []⟩

/-- Entry point `activate_milestone_voting` (owner only). -/
def activate_milestone_voting (env : Env) (s : Platform)
    (campaign_id milestone_index : ℕ) : Outcome Unit :=
  let caller := env.caller
  let current_time := env.block_timestamp
  match s.campaigns campaign_id with
  | none => ⟨.error .CampaignNotFound, s, []⟩
  | some campaign =>
    if caller ≠ campaign.owner then ⟨.error .NotCampaignOwner, s, []⟩
    else if campaign.state ≠ .Successful ∧ campaign.state ≠ .Withdrawn then
      ⟨.error .GoalNotReached, s, []⟩
    else if milestone_index ≥ campaign.milestones.length then
      ⟨.error .CampaignNotFound, s, []⟩
    else if milestone_index > 0 ∧
        (getMilestone campaign.milestones (milestone_index - 1)).released = false then
      ⟨.error .GoalNotReached, s, []⟩
    else if current_time > (getMilestone campaign.milestones milestone_index).deadline then
      ⟨.error .DeadlinePassed, s, []⟩
    else
      let m := getMilestone campaign.milestones milestone_index
      let campaign2 :=
        { campaign with milestones :=
            campaign.milestones.set milestone_index { m with voting_active := true } }
      ⟨.ok (),
        { s with campaigns := mapInsert s.campaigns campaign_id (some campaign2) }, []⟩

/-- Saturating sum of the caller's donation amounts, as accumulated by the
`vote_on_milestone` loop. -/
def voter_weight_sum (donations : List Donation) (caller : ℕ) : ℕ :=
  donations.foldl
    (fun acc d => if d.donor = caller then saturating_add128 acc d.amount else acc) 0

/-- Entry point `vote_on_milestone` (donors only, weighted, once). -/
def vote_on_milestone (env : Env) (s : Platform)
    (campaign_id milestone_index : ℕ) (approve : Bool) : Outcome Unit :=
  let caller := env.caller
  match s.campaigns campaign_id with
  | none => ⟨.error .CampaignNotFound, s, []⟩
  | some campaign =>
    if milestone_index ≥ campaign.milestones.length then
      ⟨.error .CampaignNotFound, s, []⟩
    else
      let m := getMilestone campaign.milestones milestone_index
      if m.voting_active = false then ⟨.error .CampaignNotActive, s, []⟩
      else if m.released then ⟨.error .FundsAlreadyWithdrawn, s, []⟩
      else
        let voter_weight := voter_weight_sum (s.campaign_donations campaign_id) caller
        if voter_weight = 0 then ⟨.error .NoDonationFound, s, []⟩
        else if (s.milestone_votes (campaign_id, milestone_index, caller)).isSome then
          ⟨.error .RefundAlreadyClaimed, s, []⟩
        else
          let m2 :=
            if approve then
              { m with votes_for := saturating_add128 m.votes_for voter_weight }
            else
              { m with votes_against := saturating_add128 m.votes_against voter_weight }
          ⟨.ok (),
            { s with
                milestone_votes :=
                  mapInsert s.milestone_votes (campaign_id, milestone_index, caller)
                    (some voter_weight)
                campaigns :=
                  mapInsert s.campaigns campaign_id
                    (some { campaign with
                        milestones := campaign.milestones.set milestone_index m2 }) },
            []⟩

/-- Entry point `release_milestone_funds` (owner or admin, ≥66% weighted
approval). -/
def release_milestone_funds (env : Env) (s : Platform)
    (campaign_id milestone_index : ℕ) : Outcome Unit :=
  let caller := env.caller
  match s.campaigns campaign_id with
  | none => ⟨.error .CampaignNotFound, s, []⟩
  | some campaign =>
    if caller ≠ campaign.owner ∧ caller ≠ s.admin then ⟨.error .NotCampaignOwner, s, []⟩
    else if milestone_index ≥ campaign.milestones.length then
      ⟨.error .CampaignNotFound, s, []⟩
    else
      let m := getMilestone campaign.milestones milestone_index
      if m.released then ⟨.error .FundsAlreadyWithdrawn, s, []⟩
      else if m.voting_active = false then ⟨.error .CampaignNotActive, s, []⟩
      else
        let total_votes := wrap128 (m.votes_for + m.votes_against)
        if total_votes = 0 then ⟨.error .InsufficientFunds, s, []⟩
        else
          let approval_percentage := wrap128 (m.votes_for * 100) / total_votes
          if approval_percentage < 66 then ⟨.error .GoalNotReached, s, []⟩
          else
            let total_campaign_funds := saturating_add128 campaign.raised campaign.matching_amount
            let milestone_amount := wrap128 (total_campaign_funds * m.percentage) / 10000
            if milestone_amount > 0 ∧
                env.transfer_ok campaign.beneficiary milestone_amount = false then
              ⟨.error .WithdrawalFailed, s, []⟩
            else
              let milestones2 :=
                campaign.milestones.set milestone_index
                  { m with released := true, voting_active := false }
              let all_released := milestones2.all (fun m2 => m2.released)
              let campaign2 :=
                { campaign with
                    milestones := milestones2
                    state := if all_released then .Withdrawn else campaign.state }
              ⟨.ok (),
                { s with campaigns := mapInsert s.campaigns campaign_id (some campaign2) },
                if milestone_amount > 0 then [(campaign.beneficiary, milestone_amount)] else []⟩

/-- One state-mutating entry-point invocation with its arguments. -/
inductive Op where
  | createCampaign (title description : String) (goal deadline beneficiary : ℕ)
  | createCampaignsBatch (data : List (String × String × ℕ × ℕ × ℕ))
  | donate (campaign_id : ℕ)
  | withdrawFunds (campaign_id : ℕ)
  | withdrawFundsBatch (campaign_ids : List ℕ)
  | cancelCampaign (campaign_id : ℕ)
  | claimRefund (campaign_id : ℕ)
  | fundMatchingPool
  | createMatchingRound (pool_amount duration : ℕ)
  | calculateAndDistributeMatching (round_id : ℕ)
  | addMilestones (campaign_id : ℕ) (data : List (String × ℕ × ℕ))
  | activateMilestoneVoting (campaign_id milestone_index : ℕ)
  | voteOnMilestone (campaign_id milestone_index : ℕ) (approve : Bool)
  | releaseMilestoneFunds (campaign_id milestone_index : ℕ)
  | setMaxBatchSize (size : ℕ)
  | setNftContract (a : ℕ)
  | setNftEnabled (enabled : Bool)

/-- Outcome with the success payload erased. -/
def Outcome.erase {α : Type} (o : Outcome α) : Option Error × Platform × List (ℕ × ℕ) :=
  (match o.result with | .ok _ => none | .error e => some e, o.state, o.transfers)

/-- Uniform semantics of one entry-point call: optional error, post state,
performed transfers. -/
def step (op : Op) (env : Env) (s : Platform) : Option Error × Platform × List (ℕ × ℕ) :=
  match op with
  | .createCampaign t d g dl b => (create_campaign env s t d g dl b).erase
  | .createCampaignsBatch data => (create_campaigns_batch env s data).erase
  | .donate cid => (donate env s cid).erase
  | .withdrawFunds cid => (withdraw_funds env s cid).erase
  | .withdrawFundsBatch cids => (withdraw_funds_batch env s cids).erase
  | .cancelCampaign cid => (cancel_campaign env s cid).erase
  | .claimRefund cid => (claim_refund env s cid).erase
  | .fundMatchingPool => (fund_matching_pool env s).erase
  | .createMatchingRound p d => (create_matching_round env s p d).erase
  | .calculateAndDistributeMatching rid => (calculate_and_distribute_matching env s rid).erase
  | .addMilestones cid data => (add_milestones env s cid data).erase
  | .activateMilestoneVoting cid idx => (activate_milestone_voting env s cid idx).erase
  | .voteOnMilestone cid idx a => (vote_on_milestone env s cid idx a).erase
  | .releaseMilestoneFunds cid idx => (release_milestone_funds env s cid idx).erase
  | .setMaxBatchSize n => (set_max_batch_size env s n).erase
  | .setNftContract a => (set_nft_contract env s a).erase
  | .setNftEnabled b => (set_nft_enabled env s b).erase

/-- Error component of a call. -/
def step_err (op : Op) (env : Env) (s : Platform) : Option Error := (step op env s).1

/-- Post state of a call. -/
def step_state (op : Op) (env : Env) (s : Platform) : Platform := (step op env s).2.1

/-- Transfers performed by a call. -/
def step_transfers (op : Op) (env : Env) (s : Platform) : List (ℕ × ℕ) :=
  (step op env s).2.2

/-- States reachable from a fresh engine by any sequence of entry-point
calls under arbitrary environments. -/
inductive Reachable : Platform → Prop
  | init (caller : ℕ) : Reachable (new caller)
  | migrate (caller campaign_count : ℕ) : Reachable (migrate_from_v1 caller campaign_count)
  | step (op : Op) (env : Env) {s : Platform} :
      Reachable s → Reachable (step_state op env s)

/-! ## Helper lemmas -/

theorem sqrt_loop_eq_iter (n x : ℕ) :
    sqrt_nat_loop n x ((x + n / x) / 2) = Nat.sqrt.iter n x := by
  induction x using Nat.strong_induction_on with
  | _ x ih =>
    rw [sqrt_nat_loop, Nat.sqrt.iter]
    by_cases h : (x + n / x) / 2 < x
    · simp only [dif_pos h]
      exact ih _ h
    · simp only [dif_neg h]

theorem sqrt_eq_iter (n : ℕ) (hn : 0 < n) : sqrt_nat n = Nat.sqrt.iter n n := by
  have h1 : n / n = 1 := Nat.div_self hn
  have h2 : (n + 1) / 2 = (n + n / n) / 2 := by rw [h1]
  rw [sqrt_nat, if_neg (Nat.pos_iff_ne_zero.mp hn), h2, sqrt_loop_eq_iter]

/-- The source's Babylonian integer square root is the floor square root. -/
theorem sqrt_correct (n : ℕ) : sqrt_nat n * sqrt_nat n ≤ n ∧ n < (sqrt_nat n + 1) * (sqrt_nat n + 1) := by
  rcases Nat.eq_zero_or_pos n with h | h
  · subst h; simp [sqrt_nat]
  · rw [sqrt_eq_iter n h]
    refine ⟨Nat.sqrt.iter_sq_le n n, Nat.sqrt.lt_iter_succ_sq n n ?_⟩
    nlinarith

/-- The floor-square-root bounds determine the result uniquely. -/
theorem sqrt_unique (n r : ℕ) (h1 : r * r ≤ n) (h2 : n < (r + 1) * (r + 1)) :
    sqrt_nat n = r := by
  rcases sqrt_correct n with ⟨ha, hb⟩
  by_contra hne
  rcases Nat.lt_or_ge (sqrt_nat n) r with h | h
  · have h3 : sqrt_nat n + 1 ≤ r := h
    have := Nat.mul_le_mul h3 h3
    omega
  · have hr : r < sqrt_nat n := lt_of_le_of_ne h (fun e => hne e.symm)
    have h3 : r + 1 ≤ sqrt_nat n := hr
    have := Nat.mul_le_mul h3 h3
    omega

theorem sqrt_100 : sqrt_nat 100 = 10 := sqrt_unique 100 10 (by norm_num) (by norm_num)

theorem sqrt_400 : sqrt_nat 400 = 20 := sqrt_unique 400 20 (by norm_num) (by norm_num)

theorem sqrt_1000000 : sqrt_nat 1000000 = 1000 :=
  sqrt_unique 1000000 1000 (by norm_num) (by norm_num)

/-- For `1 ≤ t ≤ n` the loop sum `t + n / t` is at most `n + 1`: below
`u128::MAX` the checked addition inside the loop can never overflow. -/
theorem sqrt_sum_le (n t : ℕ) (h1 : 1 ≤ t) (ht : t ≤ n) : t + n / t ≤ n + 1 := by
  have hqr : t * (n / t) + n % t = n := Nat.div_add_mod n t
  have hq : 1 ≤ n / t := (Nat.one_le_div_iff h1).mpr ht
  have key : t + n / t ≤ t * (n / t) + 1 := by
    rcases Nat.eq_or_lt_of_le hq with h | h
    · rw [← h]
      omega
    · rcases Nat.eq_or_lt_of_le h1 with h2 | h2
      · rw [← h2]
        omega
      · have h3 := Nat.add_le_mul h2 h
        omega
  omega

/-- Below `u128::MAX` the checked loop never trips its overflow check and
computes the bare Babylonian iteration. -/
theorem sqrt_loop_eq (n : ℕ) (hn : 1 ≤ n) (hb : n + 1 < U128) :
    ∀ x y, 1 ≤ y → y ≤ n → sqrt_loop n x y = some (sqrt_nat_loop n x y) := by
  intro x
  induction x using Nat.strong_induction_on with
  | _ x ih =>
    intro y hy1 hyn
    rw [sqrt_loop, sqrt_nat_loop]
    by_cases h : y < x
    · rw [dif_pos h, dif_pos h]
      have hle : y + n / y ≤ n + 1 := sqrt_sum_le n y hy1 hyn
      have hck : checked_add128 y (n / y) = some (y + n / y) := by
        unfold checked_add128
        rw [if_pos (by omega)]
      rw [hck]
      dsimp only
      refine ih y h ((y + n / y) / 2) ?_ ?_
      · have h2 : 2 ≤ y + n / y := by
          rcases Nat.eq_or_lt_of_le hy1 with h3 | h3
          · subst h3
            omega
          · exact le_trans h3 (Nat.le_add_right _ _)
        omega
      · omega
    · rw [dif_neg h, dif_neg h]

/-- The source square root returns on every input below `u128::MAX`, with
the bare Babylonian value. -/
theorem sqrt_eq_some (n : ℕ) (hb : n < U128 - 1) : sqrt n = some (sqrt_nat n) := by
  unfold sqrt sqrt_nat
  by_cases h : n = 0
  · rw [if_pos h, if_pos h]
  · rw [if_neg h, if_neg h]
    have hU : (2 : ℕ) ≤ U128 := by norm_num [U128]
    have hck : checked_add128 n 1 = some (n + 1) := by
      unfold checked_add128
      rw [if_pos (by omega)]
    rw [hck]
    dsimp only
    exact sqrt_loop_eq n (by omega) (by omega) n ((n + 1) / 2) (by omega) (by omega)

/-- At `n = u128::MAX` the initial `x + 1` of `fn sqrt` overflows: the call
traps and returns nothing. -/
theorem sqrt_max_trap : sqrt (U128 - 1) = none := by
  unfold sqrt
  rw [if_neg (by norm_num [U128])]
  have hck : checked_add128 (U128 - 1) 1 = none := by
    unfold checked_add128
    rw [if_neg (by norm_num [U128])]
  rw [hck]

/-- Saturating left fold of additions clamps the plain sum at the maximum. -/
theorem saturating_foldl (l : List ℕ) (a : ℕ) (ha : a ≤ U128 - 1) :
    l.foldl (fun acc x => saturating_add128 acc x) a = min (a + l.sum) (U128 - 1) := by
  induction l generalizing a with
  | nil => simpa using (Nat.min_eq_left (by omega)).symm
  | cons x xs ih =>
    simp only [List.foldl_cons, List.sum_cons]
    rw [ih _ (by unfold saturating_add128; exact Nat.min_le_right _ _)]
    unfold saturating_add128
    omega

/-- Campaign score evaluation: below the `u128` bound the saturating
arithmetic computes the exact square of the sum of donation roots. -/
theorem calculate_qf_score_eq (s : Platform) (campaign_id : ℕ)
    (h : (((s.campaign_donations campaign_id).map (fun d => sqrt_nat d.amount)).sum) ^ 2 < U128) :
    calculate_qf_score s campaign_id =
      (((s.campaign_donations campaign_id).map (fun d => sqrt_nat d.amount)).sum) ^ 2 := by
  set l := s.campaign_donations campaign_id with hl
  show saturating_mul128 (l.foldl (fun acc d => saturating_add128 acc (sqrt_nat d.amount)) 0)
      (l.foldl (fun acc d => saturating_add128 acc (sqrt_nat d.amount)) 0)
    = (l.map (fun d => sqrt_nat d.amount)).sum ^ 2
  have hfold : l.foldl (fun acc d => saturating_add128 acc (sqrt_nat d.amount)) 0
      = (l.map (fun d => sqrt_nat d.amount)).foldl (fun acc x => saturating_add128 acc x) 0 := by
    rw [List.foldl_map]
  rw [hfold, saturating_foldl _ 0 (Nat.zero_le _)]
  set m := (l.map (fun d => sqrt_nat d.amount)).sum with hm
  have hmle : m ≤ U128 - 1 := by
    have : m ≤ m ^ 2 ∨ m = 0 := by
      rcases Nat.eq_zero_or_pos m with h0 | h0
      · right; exact h0
      · left; nlinarith
    have hU : 0 < U128 := by norm_num [U128]
    rcases this with h1 | h1 <;> omega
  rw [Nat.zero_add, Nat.min_eq_left hmle]
  unfold saturating_mul128
  have : m * m = m ^ 2 := by ring
  rw [this, Nat.min_eq_left (by omega)]

/-- Donation list of the quadratic-funding example: 100 and 400. -/
def qf_example_donations : List Donation :=
  [{ donor := 7, amount := 100, timestamp := 1 },
   { donor := 8, amount := 400, timestamp := 2 }]

/-- Concrete campaign ledger used to exercise the quadratic-funding example. -/
def qf_example_state : Platform :=
  { new 0 with campaign_donations := mapInsert (fun _ => []) 0 qf_example_donations }

/-! ## Claim theorems -/

/-- C7 (amended): for every `u128` input below the maximum the internal
square root returns, and returns the floor square root
(`r * r ≤ n < (r+1)*(r+1)`); at `n = u128::MAX` the initial `x + 1`
overflows and the call traps instead of returning.  Whenever the squared
sum of donation roots is below the `u128` bound, a campaign's
quadratic-funding score is exactly `(Σ ⌊√donation⌋)²`; in particular two
donations of 100 and 400 give `(10 + 20)² = 900`. -/
theorem c7_sqrt_and_qf_score :
    (∀ n : ℕ, n < U128 - 1 →
      sqrt n = some (sqrt_nat n) ∧
      sqrt_nat n * sqrt_nat n ≤ n ∧ n < (sqrt_nat n + 1) * (sqrt_nat n + 1)) ∧
    sqrt (U128 - 1) = none ∧
    (∀ (s : Platform) (campaign_id : ℕ),
      (((s.campaign_donations campaign_id).map (fun d => sqrt_nat d.amount)).sum) ^ 2 < U128 →
      calculate_qf_score s campaign_id =
        (((s.campaign_donations campaign_id).map (fun d => sqrt_nat d.amount)).sum) ^ 2) ∧
    calculate_qf_score qf_example_state 0 = 900 := by
  refine ⟨fun n hb => ⟨sqrt_eq_some n hb, sqrt_correct n⟩, sqrt_max_trap,
    calculate_qf_score_eq, ?_⟩
  have h : (qf_example_state.campaign_donations 0).map (fun d => sqrt_nat d.amount)
      = [sqrt_nat 100, sqrt_nat 400] := by
    simp [qf_example_state, qf_example_donations, mapInsert, new]
  rw [calculate_qf_score_eq _ _ (by rw [h, sqrt_100, sqrt_400]; norm_num [U128])]
  rw [h, sqrt_100, sqrt_400]
  norm_num

/-- C7 witness: the square-root return value, its floor bounds and the
score formula evaluated at concrete inputs. -/
theorem c7_witness :
    sqrt 30 = some (sqrt_nat 30) ∧
    sqrt_nat 30 * sqrt_nat 30 ≤ 30 ∧ 30 < (sqrt_nat 30 + 1) * (sqrt_nat 30 + 1) ∧
    calculate_qf_score qf_example_state 0 =
      ((qf_example_state.campaign_donations 0).map (fun d => sqrt_nat d.amount)).sum ^ 2 := by
  obtain ⟨h1, h2, h3⟩ := c7_sqrt_and_qf_score.1 30 (by norm_num [U128])
  refine ⟨h1, h2, h3, ?_⟩
  apply c7_sqrt_and_qf_score.2.2.1 qf_example_state 0
  have h : (qf_example_state.campaign_donations 0).map (fun d => sqrt_nat d.amount)
      = [sqrt_nat 100, sqrt_nat 400] := by
    simp [qf_example_state, qf_example_donations, mapInsert, new]
  rw [h, sqrt_100, sqrt_400]
  norm_num [U128]

/-- C7 counterexample: at the `u128` input `2^128 - 1` the source square
root does not return the floor root — the initial `x + 1` overflows and the
call traps (`none`) — refuting the claim's universal quantifier over `u128`
inputs. -/
theorem c7_counterexample : sqrt (U128 - 1) = none ∧ 0 < U128 - 1 := by
  refine ⟨sqrt_max_trap, by norm_num [U128]⟩

/-- Campaign with an empty donation list, used to exhibit the pagination
trap of `get_campaign_details`. -/
def details_example_campaign : Campaign :=
  { id := 0, owner := 1, title := "t", description := "d", goal := 10
    raised := 0, deadline := 4000000, state := .Active, beneficiary := 3
    donation_count := 0, matching_round := none, matching_amount := 0
    milestones := [], uses_milestones := false }

/-- State holding `details_example_campaign` with zero recorded donations. -/
def details_example_state : Platform :=
  { new 0 with campaigns := mapInsert (fun _ => none) 0 (some details_example_campaign)
               campaign_count := 1 }

/-- C9: evaluation of the failing input.  For an existing campaign with 0
recorded donations and `offset = 1 > 0 = count`, the donations slice
`all_donations[start..end]` has `start = 1 > 0 = end`, which is a Rust
slice-range panic (modelled as `none`), not a normal return with an empty
list: the accessor traps instead of clamping the offset. -/
theorem c9_details_trap : get_campaign_details details_example_state 0 1 0 = none := by
  decide

/-- An engine state whose reentrancy lock flag is set. -/
def locked_example_state : Platform := { new 0 with locked := true }

/-- Environment used for concrete counterexample traces. -/
def env_create : Env := ⟨1, 0, 0, fun _ _ => true⟩

/-- C1 (amended): the four entry points that actually carry the reentrancy
guard — `donate`, `withdraw_funds`, `withdraw_funds_batch` (whose batch-size
check precedes the lock check) and `claim_refund` — fail immediately with
`ReentrantCall` when the lock flag is set at call begin, leave the stored
state exactly unchanged and perform no currency transfer. -/
theorem c1_guarded_entry_points (env : Env) (s : Platform) (h : s.locked = true) :
    (∀ campaign_id, donate env s campaign_id = ⟨.error .ReentrantCall, s, []⟩) ∧
    (∀ campaign_id, withdraw_funds env s campaign_id = ⟨.error .ReentrantCall, s, []⟩) ∧
    (∀ campaign_ids, ¬ campaign_ids.length > s.max_batch_size →
      withdraw_funds_batch env s campaign_ids = ⟨.error .ReentrantCall, s, []⟩) ∧
    (∀ campaign_id, claim_refund env s campaign_id = ⟨.error .ReentrantCall, s, []⟩) := by
  refine ⟨fun cid => ?_, fun cid => ?_, fun cids hlen => ?_, fun cid => ?_⟩
  · rw [donate, if_pos h]
  · rw [withdraw_funds, if_pos h]
  · rw [withdraw_funds_batch, if_neg hlen, if_pos h]
  · rw [claim_refund, if_pos h]

/-- C1 witness: the guard observed on a concrete locked state. -/
theorem c1_witness :
    donate env_create locked_example_state 5 =
      ⟨.error .ReentrantCall, locked_example_state, []⟩ ∧
    withdraw_funds_batch env_create locked_example_state [0] =
      ⟨.error .ReentrantCall, locked_example_state, []⟩ :=
  ⟨(c1_guarded_entry_points env_create locked_example_state rfl).1 5,
   (c1_guarded_entry_points env_create locked_example_state rfl).2.2.1 [0] (by decide)⟩

/-- C1 counterexample: `create_campaign` is in the claim's list of guarded
entry points, but with the lock flag set it does not return the
reentrant-call error — it succeeds and modifies stored state (the campaign
counter and the campaign map). -/
theorem c1_counterexample :
    locked_example_state.locked = true ∧
    step_err (.createCampaign "t" "d" 10 4000000 3) env_create locked_example_state = none ∧
    (step_state (.createCampaign "t" "d" 10 4000000 3) env_create
        locked_example_state).campaign_count = 1 ∧
    locked_example_state.campaign_count = 0 := by
  decide

/-- Re-inserting the original value at a key restores the map. -/
theorem mapInsert_cancel {α β : Type} [DecidableEq α] (f : α → β) (k : α) (v w : β)
    (h : f k = w) : mapInsert (mapInsert f k v) k w = f := by
  funext x
  unfold mapInsert
  by_cases hx : x = k <;> simp [hx, h.symm]

/-- C5: on a Failed campaign, a donor with recorded donations summing to
`r > 0` and no claim marker gets exactly one refund: a successful first
call transfers `r`, sets the `(campaign, donor)` marker and changes nothing
else; a second call by the same donor then fails with `RefundAlreadyClaimed`
and changes nothing; and if the currency transfer fails, the marker is
rolled back so the state is exactly the original and no transfer was
performed — the marker is set iff the refund was paid. -/
theorem c5_refund_exactly_once (env env2 : Env) (s : Platform) (campaign_id : ℕ)
    (c : Campaign) (r : ℕ)
    (hlock : s.locked = false)
    (hcamp : s.campaigns campaign_id = some c)
    (hfail : c.state = .Failed)
    (hmark : s.refund_claimed (campaign_id, env.caller) = false)
    (hsum : donor_sum_checked (s.campaign_donations campaign_id) env.caller = some r)
    (hr : 0 < r)
    (hcaller : env2.caller = env.caller) :
    (env.transfer_ok env.caller r = true →
      claim_refund env s campaign_id =
        ⟨.ok (),
          { s with refund_claimed :=
              mapInsert s.refund_claimed (campaign_id, env.caller) true },
          [(env.caller, r)]⟩ ∧
      claim_refund env2
          { s with refund_claimed :=
              mapInsert s.refund_claimed (campaign_id, env.caller) true } campaign_id =
        ⟨.error .RefundAlreadyClaimed,
          { s with refund_claimed :=
              mapInsert s.refund_claimed (campaign_id, env.caller) true },
          []⟩) ∧
    (env.transfer_ok env.caller r = false →
      claim_refund env s campaign_id = ⟨.error .TransferFailed, s, []⟩) := by
  obtain ⟨cam, don, ref, cc, adm, lk, ver, mbs, nc, ne, mpb, cr, mr, rc, ud, mv, ta⟩ := s
  simp only at hlock hcamp hmark hsum
  subst hlock
  constructor
  · intro htr
    constructor
    · simp only [claim_refund, if_neg (Bool.false_ne_true), hcamp, hfail, hmark, hsum]
      simp [htr, hr.ne.symm, hr.ne]
    · simp only [claim_refund, if_neg (Bool.false_ne_true), hcamp, hfail, hcaller,
        mapInsert, if_pos rfl]
      simp
  · intro htr
    simp only [claim_refund, if_neg (Bool.false_ne_true), hcamp, hfail, hmark, hsum]
    simp [htr, hr.ne.symm, hr.ne, mapInsert_cancel ref (campaign_id, env.caller) true false hmark]

/-- Failed campaign used by the refund witness. -/
def refund_example_campaign : Campaign :=
  { id := 0, owner := 1, title := "t", description := "d", goal := 10000000
    raised := 1000000, deadline := 4000000, state := .Failed, beneficiary := 3
    donation_count := 1, matching_round := none, matching_amount := 0
    milestones := [], uses_milestones := false }

/-- State with one Failed campaign and one donation of 1000000 by donor 2. -/
def refund_example_state : Platform :=
  { new 0 with campaigns := mapInsert (fun _ => none) 0 (some refund_example_campaign)
               campaign_donations :=
                 mapInsert (fun _ => []) 0 [{ donor := 2, amount := 1000000, timestamp := 5 }]
               campaign_count := 1 }

/-- Environment of donor 2 with all transfers succeeding. -/
def env_refund : Env := ⟨2, 9000000, 0, fun _ _ => true⟩

/-- The refund-example state after donor 2's claim marker is set. -/
def refund_marked_state : Platform :=
  { refund_example_state with
      refund_claimed := mapInsert refund_example_state.refund_claimed (0, 2) true }

/-- C5 witness: the refund behaviour evaluated on a concrete Failed
campaign. -/
theorem c5_witness :
    claim_refund env_refund refund_example_state 0 =
      ⟨.ok (), refund_marked_state, [(2, 1000000)]⟩ :=
  ((c5_refund_exactly_once env_refund env_refund refund_example_state 0
      refund_example_campaign 1000000 rfl (by decide) (by decide) rfl (by decide)
      (by decide) rfl).1 rfl).1

/-- Milestone list after milestone `idx` (whose current value is `m`) is
marked released with voting cleared. -/
def released_milestones (c : Campaign) (idx : ℕ) (m : Milestone) : List Milestone :=
  c.milestones.set idx { m with released := true, voting_active := false }

/-- Campaign record written by a successful `release_milestone_funds`. -/
def released_campaign (c : Campaign) (idx : ℕ) (m : Milestone) : Campaign :=
  { c with
      milestones := released_milestones c idx m
      state :=
        if (released_milestones c idx m).all (fun m2 => m2.released) then .Withdrawn
        else c.state }

/-- C6: called by the owner or admin on an existing milestone with voting
active and not yet released (vote tallies and amounts within the `u128`
bounds, the currency transfer succeeding), `release_milestone_funds`
succeeds iff `votes_for + votes_against > 0` and the integer-division
approval `votes_for * 100 / (votes_for + votes_against)` is at least 66; on
success it transfers `(raised + matching_amount) * percentage / 10000` to
the beneficiary, marks the milestone released, clears `voting_active`, and
sets the campaign state to `Withdrawn` exactly when every milestone is then
released; the failing cases return `InsufficientFunds` (no votes) or
`GoalNotReached` (approval below 66) with no state change or transfer. -/
theorem c6_release_threshold (env : Env) (s : Platform) (campaign_id milestone_index : ℕ)
    (c : Campaign) (m : Milestone)
    (hcamp : s.campaigns campaign_id = some c)
    (hown : env.caller = c.owner ∨ env.caller = s.admin)
    (hm : c.milestones[milestone_index]? = some m)
    (hrel : m.released = false)
    (hva : m.voting_active = true)
    (hb0 : c.raised + c.matching_amount < U128)
    (hb1 : m.votes_for + m.votes_against < U128)
    (hb2 : m.votes_for * 100 < U128)
    (hb3 : (c.raised + c.matching_amount) * m.percentage < U128)
    (htr : env.transfer_ok c.beneficiary
      ((c.raised + c.matching_amount) * m.percentage / 10000) = true) :
    (0 < m.votes_for + m.votes_against ∧
       66 ≤ m.votes_for * 100 / (m.votes_for + m.votes_against) →
      release_milestone_funds env s campaign_id milestone_index =
        ⟨.ok (),
          { s with
              campaigns := mapInsert s.campaigns campaign_id
                (some (released_campaign c milestone_index m)) },
          if 0 < (c.raised + c.matching_amount) * m.percentage / 10000 then
            [(c.beneficiary, (c.raised + c.matching_amount) * m.percentage / 10000)]
          else []⟩) ∧
    (m.votes_for + m.votes_against = 0 →
      release_milestone_funds env s campaign_id milestone_index =
        ⟨.error .InsufficientFunds, s, []⟩) ∧
    (0 < m.votes_for + m.votes_against →
      m.votes_for * 100 / (m.votes_for + m.votes_against) < 66 →
      release_milestone_funds env s campaign_id milestone_index =
        ⟨.error .GoalNotReached, s, []⟩) := by
  have hlt : milestone_index < c.milestones.length := by
    by_contra hge
    rw [List.getElem?_len_le (by omega)] at hm
    exact Option.noConfusion hm
  have hidx : ¬ milestone_index ≥ c.milestones.length := by omega
  have hget : getMilestone c.milestones milestone_index = m := by
    simp [getMilestone, hm]
  have hownif : ¬ (env.caller ≠ c.owner ∧ env.caller ≠ s.admin) := by tauto
  have hsat : saturating_add128 c.raised c.matching_amount = c.raised + c.matching_amount := by
    unfold saturating_add128
    omega
  have hwrapv : wrap128 (m.votes_for + m.votes_against) = m.votes_for + m.votes_against :=
    Nat.mod_eq_of_lt hb1
  have hwrapm : wrap128 (m.votes_for * 100) = m.votes_for * 100 := Nat.mod_eq_of_lt hb2
  have hwrapa : wrap128 ((c.raised + c.matching_amount) * m.percentage)
      = (c.raised + c.matching_amount) * m.percentage := Nat.mod_eq_of_lt hb3
  refine ⟨fun hpass => ?_, fun hzero => ?_, fun hpos hlow => ?_⟩
  · unfold release_milestone_funds
    rw [hcamp]
    simp only [hget, hrel, hva, hwrapv, hwrapm, hsat, hwrapa, if_neg hownif, if_neg hidx]
    rw [if_neg hpass.1.ne.symm]
    rw [if_neg (by
      have h66 := hpass.2
      omega : ¬ m.votes_for * 100 / (m.votes_for + m.votes_against) < 66)]
    simp [htr, released_campaign, released_milestones]
  · unfold release_milestone_funds
    rw [hcamp]
    simp only [hget, hrel, hva, hwrapv, if_neg hownif, if_neg hidx]
    simp [hzero]
  · unfold release_milestone_funds
    rw [hcamp]
    simp only [hget, hrel, hva, hwrapv, hwrapm, if_neg hownif, if_neg hidx]
    rw [if_neg hpos.ne.symm, if_pos hlow]
    simp

/-- Milestone with 70/30 weighted votes and voting active. -/
def milestone_example_70 : Milestone :=
  { description := "m", percentage := 10000, deadline := 9000000
    votes_for := 70, votes_against := 30, released := false, voting_active := true }

/-- Milestone with 60/40 weighted votes and voting active. -/
def milestone_example_60 : Milestone :=
  { milestone_example_70 with votes_for := 60, votes_against := 40 }

/-- Successful campaign carrying the given milestone. -/
def milestone_example_campaign (m : Milestone) : Campaign :=
  { id := 0, owner := 1, title := "t", description := "d", goal := 100
    raised := 10000, deadline := 4000000, state := .Successful, beneficiary := 3
    donation_count := 1, matching_round := none, matching_amount := 0
    milestones := [m], uses_milestones := true }

/-- State holding the milestone campaign built from `m`. -/
def milestone_example_state (m : Milestone) : Platform :=
  { new 0 with
      campaigns := mapInsert (fun _ => none) 0 (some (milestone_example_campaign m))
      campaign_count := 1 }

/-- Owner environment with all transfers succeeding. -/
def env_owner : Env := ⟨1, 1000, 0, fun _ _ => true⟩

/-- C6 witness: 70/30 releases the funds (10000 to the beneficiary, the
milestone marked released, the campaign Withdrawn), and 60/40 is rejected
with `GoalNotReached`. -/
theorem c6_witness :
    (release_milestone_funds env_owner (milestone_example_state milestone_example_70) 0 0).isOk
        = true ∧
    (release_milestone_funds env_owner (milestone_example_state milestone_example_70) 0
        0).transfers = [(3, 10000)] ∧
    release_milestone_funds env_owner (milestone_example_state milestone_example_60) 0 0 =
      ⟨.error .GoalNotReached, milestone_example_state milestone_example_60, []⟩ := by
  have h70 := (c6_release_threshold env_owner (milestone_example_state milestone_example_70)
    0 0 (milestone_example_campaign milestone_example_70) milestone_example_70
    (by decide) (Or.inl rfl) (by decide) rfl rfl (by decide) (by decide) (by decide)
    (by decide) rfl).1 (by decide)
  have h60 := (c6_release_threshold env_owner (milestone_example_state milestone_example_60)
    0 0 (milestone_example_campaign milestone_example_60) milestone_example_60
    (by decide) (Or.inl rfl) (by decide) rfl rfl (by decide) (by decide) (by decide)
    (by decide) rfl).2.2 (by decide) (by decide)
  rw [h70, h60]
  refine ⟨rfl, ?_, rfl⟩
  norm_num [milestone_example_campaign, milestone_example_70]

/-- Commutation of `process_withdrawal` with the refund-claim markers and
the donation ledger: the function neither reads nor writes either field. -/
theorem process_withdrawal_frame (env : Env) (s : Platform) (campaign_id : ℕ)
    (m : ℕ × ℕ → Bool) (l : ℕ → List Donation) :
    process_withdrawal env { s with refund_claimed := m, campaign_donations := l }
        campaign_id =
      ⟨(process_withdrawal env s campaign_id).result,
       { (process_withdrawal env s campaign_id).state with
           refund_claimed := m, campaign_donations := l },
       (process_withdrawal env s campaign_id).transfers⟩ := by
  obtain ⟨cam, don, ref, cc, adm, lk, ver, mbs, nc, ne, mpb, cr, mr, rc, ud, mv, ta⟩ := s
  unfold process_withdrawal
  dsimp only
  rcases cam campaign_id with _ | c
  · rfl
  · dsimp only
    split
    · rfl
    · split
      · rfl
      · split
        · rfl
        · split
          · rfl
          · rcases (checked_mul128 c.raised 3).bind (fun m2 => checked_div128 m2 100) with
              _ | fee_total
            · rfl
            · dsimp only
              rcases checked_sub128 c.raised fee_total with _ | net
              · rfl
              · dsimp only
                rcases checked_add128 net c.matching_amount with _ | total
                · rfl
                · dsimp only
                  split <;> rfl

/-- Commutation of `withdraw_funds` with the refund-claim markers and the
donation ledger. -/
theorem withdraw_funds_frame (env : Env) (s : Platform) (campaign_id : ℕ)
    (m : ℕ × ℕ → Bool) (l : ℕ → List Donation) :
    withdraw_funds env { s with refund_claimed := m, campaign_donations := l } campaign_id =
      ⟨(withdraw_funds env s campaign_id).result,
       { (withdraw_funds env s campaign_id).state with
           refund_claimed := m, campaign_donations := l },
       (withdraw_funds env s campaign_id).transfers⟩ := by
  unfold withdraw_funds
  dsimp only
  by_cases hlk : s.locked
  · simp only [hlk, if_pos]
  · simp only [hlk, if_neg, Bool.false_eq_true, if_false]
    have h := process_withdrawal_frame env { s with locked := true } campaign_id m l
    rw [show ({ s with refund_claimed := m, campaign_donations := l, locked := true } : Platform)
        = { { s with locked := true } with refund_claimed := m, campaign_donations := l }
        from rfl, h]

/-- The state written by `claim_refund` keeps the campaign map unchanged:
in particular `raised` is never reduced by a refund. -/
theorem claim_refund_keeps_campaigns (env : Env) (s : Platform) (campaign_id : ℕ) :
    (claim_refund env s campaign_id).state.campaigns = s.campaigns := by
  obtain ⟨cam, don, ref, cc, adm, lk, ver, mbs, nc, ne, mpb, cr, mr, rc, ud, mv, ta⟩ := s
  unfold claim_refund
  dsimp only
  split
  · rfl
  · dsimp only
    rcases cam campaign_id with _ | c
    · rfl
    · dsimp only
      split
      · rfl
      · split
        · rfl
        · rcases donor_sum_checked (don campaign_id) env.caller with _ | r
          · rfl
          · dsimp only
            split
            · rfl
            · split <;> rfl

/-- Donor environment paying 1000000 at time 100. -/
def env_donor : Env := ⟨2, 100, 1000000, fun _ _ => true⟩

/-- Owner environment cancelling at time 200. -/
def env_cancel : Env := ⟨1, 200, 0, fun _ _ => true⟩

/-- Donor environment claiming the refund at time 300. -/
def env_claim : Env := ⟨2, 300, 0, fun _ _ => true⟩

/-- Owner environment withdrawing after the deadline. -/
def env_withdraw : Env := ⟨1, 5000000, 0, fun _ _ => true⟩

/-- Failed campaign state reached by create, donate (1000000 by donor 2),
cancel. -/
def double_payout_state : Platform :=
  step_state (.cancelCampaign 0) env_cancel
    (step_state (.donate 0) env_donor
      (step_state (.createCampaign "t" "d" 10000000 4000000 3) env_create (new 0)))

/-- C10: `withdraw_funds` commutes with (neither reads nor modifies) the
refund-claim markers and the donation ledger, `claim_refund` leaves the
whole campaign map (hence `raised`) unchanged, and on a concrete reachable
Failed campaign the same contributed 1000000 is paid out twice: the donor's
refund transfers the full 1000000, and a later owner withdrawal still
transfers `raised - raised*3/100 + matching_amount = 970000` to the
beneficiary. -/
theorem c10_frame_and_double_payout :
    (∀ (env : Env) (s : Platform) (campaign_id : ℕ)
        (m : ℕ × ℕ → Bool) (l : ℕ → List Donation),
      (withdraw_funds env s campaign_id).state.refund_claimed = s.refund_claimed ∧
      (withdraw_funds env s campaign_id).state.campaign_donations = s.campaign_donations ∧
      withdraw_funds env { s with refund_claimed := m, campaign_donations := l } campaign_id =
        ⟨(withdraw_funds env s campaign_id).result,
         { (withdraw_funds env s campaign_id).state with
             refund_claimed := m, campaign_donations := l },
         (withdraw_funds env s campaign_id).transfers⟩) ∧
    (∀ (env : Env) (s : Platform) (campaign_id : ℕ),
      (claim_refund env s campaign_id).state.campaigns = s.campaigns) ∧
    Reachable double_payout_state ∧
    (double_payout_state.campaigns 0).map Campaign.state = some .Failed ∧
    (double_payout_state.campaigns 0).map Campaign.raised = some 1000000 ∧
    (double_payout_state.campaigns 0).map Campaign.matching_amount = some 0 ∧
    step_transfers (.claimRefund 0) env_claim double_payout_state = [(2, 1000000)] ∧
    step_transfers (.withdrawFunds 0) env_withdraw
        (step_state (.claimRefund 0) env_claim double_payout_state) = [(3, 970000)] := by
  refine ⟨fun env s cid m l => ?_, claim_refund_keeps_campaigns, ?_, ?_, ?_, ?_, ?_, ?_⟩
  · have h2 := withdraw_funds_frame env s cid s.refund_claimed s.campaign_donations
    exact ⟨congrArg (fun o => o.state.refund_claimed) h2,
      congrArg (fun o => o.state.campaign_donations) h2,
      withdraw_funds_frame env s cid m l⟩
  · exact Reachable.step _ _ (Reachable.step _ _ (Reachable.step _ _ (Reachable.init 0)))
  · decide
  · decide
  · decide
  · decide
  · decide

/-- Rewriting the lock flag to its current value is the identity. -/
theorem set_locked_false (s : Platform) (h : s.locked = false) :
    { s with locked := false } = s := by
  obtain ⟨cam, don, ref, cc, adm, lk, ver, mbs, nc, ne, mpb, cr, mr, rc, ud, mv, ta⟩ := s
  simp only at h
  subst h
  rfl

/-- Errors of `cancel_campaign` leave the state unchanged with no transfer. -/
theorem cancel_campaign_err (env : Env) (s : Platform) (campaign_id : ℕ) (e : Error)
    (s' : Platform) (tr : List (ℕ × ℕ))
    (h : cancel_campaign env s campaign_id = ⟨.error e, s', tr⟩) : s' = s ∧ tr = [] := by
  unfold cancel_campaign at h
  repeat' split at h
  all_goals rw [Outcome.mk.injEq] at h
  all_goals first
    | exact ⟨h.2.1.symm, h.2.2.symm⟩
    | exact Except.noConfusion h.1

/-- Errors of `create_campaign` leave the state unchanged with no transfer. -/
theorem create_campaign_err (env : Env) (s : Platform) (t d : String)
    (g dl b : ℕ) (e : Error) (s' : Platform) (tr : List (ℕ × ℕ))
    (h : create_campaign env s t d g dl b = ⟨.error e, s', tr⟩) : s' = s ∧ tr = [] := by
  unfold create_campaign at h
  dsimp only at h
  repeat' split at h
  all_goals rw [Outcome.mk.injEq] at h
  all_goals first
    | exact ⟨h.2.1.symm, h.2.2.symm⟩
    | exact Except.noConfusion h.1

/-- The batch-creation loop always returns a success value. -/
theorem create_batch_loop_ok (env : Env) (data : List (String × String × ℕ × ℕ × ℕ)) :
    ∀ (s : Platform) (acc : BatchResult),
      ∃ r s2, create_batch_loop env data s acc = ⟨.ok r, s2, []⟩ := by
  induction data with
  | nil => intro s acc; exact ⟨acc, s, rfl⟩
  | cons hd tl ih =>
    intro s acc
    obtain ⟨t, d, g, dl, b⟩ := hd
    unfold create_batch_loop
    dsimp only
    rcases hres : (create_campaign env s t d g dl b).result with e | id
    · exact ih _ _
    · exact ih _ _

/-- Errors of `create_campaigns_batch` leave the state unchanged with no
transfer. -/
theorem create_campaigns_batch_err (env : Env) (s : Platform)
    (data : List (String × String × ℕ × ℕ × ℕ)) (e : Error)
    (s' : Platform) (tr : List (ℕ × ℕ))
    (h : create_campaigns_batch env s data = ⟨.error e, s', tr⟩) : s' = s ∧ tr = [] := by
  unfold create_campaigns_batch at h
  split at h
  · rw [Outcome.mk.injEq] at h
    exact ⟨h.2.1.symm, h.2.2.symm⟩
  · obtain ⟨r, s2, hr⟩ := create_batch_loop_ok env data s ⟨0, 0, []⟩
    rw [hr, Outcome.mk.injEq] at h
    exact Except.noConfusion h.1

/-- Errors of `process_withdrawal` leave the state unchanged with no
transfer. -/
theorem process_withdrawal_err (env : Env) (s : Platform) (campaign_id : ℕ) (e : Error)
    (s' : Platform) (tr : List (ℕ × ℕ))
    (h : process_withdrawal env s campaign_id = ⟨.error e, s', tr⟩) : s' = s ∧ tr = [] := by
  unfold process_withdrawal at h
  dsimp only at h
  repeat' split at h
  all_goals rw [Outcome.mk.injEq] at h
  all_goals first
    | exact ⟨h.2.1.symm, h.2.2.symm⟩
    | exact Except.noConfusion h.1

/-- Errors of `withdraw_funds` leave the state unchanged with no transfer. -/
theorem withdraw_funds_err (env : Env) (s : Platform) (campaign_id : ℕ) (e : Error)
    (s' : Platform) (tr : List (ℕ × ℕ))
    (h : withdraw_funds env s campaign_id = ⟨.error e, s', tr⟩) : s' = s ∧ tr = [] := by
  unfold withdraw_funds at h
  split at h
  · rw [Outcome.mk.injEq] at h
    exact ⟨h.2.1.symm, h.2.2.symm⟩
  · next hlk =>
    rw [Outcome.mk.injEq] at h
    obtain ⟨h1, h2, h3⟩ := h
    have hp : process_withdrawal env { s with locked := true } campaign_id =
        ⟨.error e, (process_withdrawal env { s with locked := true } campaign_id).state,
         (process_withdrawal env { s with locked := true } campaign_id).transfers⟩ := by
      rw [← h1]
    obtain ⟨hs, ht⟩ := process_withdrawal_err _ _ _ _ _ _ hp
    rw [hs] at h2
    refine ⟨?_, by rw [← h3, ht]⟩
    rw [← h2]
    exact set_locked_false s (Bool.not_eq_true _ ▸ hlk)

/-- The batch-withdrawal loop always returns a success value. -/
theorem withdraw_batch_loop_ok (env : Env) (ids : List ℕ) :
    ∀ (s : Platform) (acc : BatchResult) (trs : List (ℕ × ℕ)),
      ∃ r s2 tr2, withdraw_batch_loop env ids s acc trs = ⟨.ok r, s2, tr2⟩ := by
  induction ids with
  | nil => intro s acc trs; exact ⟨acc, s, trs, rfl⟩
  | cons hd tl ih =>
    intro s acc trs
    unfold withdraw_batch_loop
    dsimp only
    rcases hres : (process_withdrawal env s hd).result with e | u
    · exact ih _ _ _
    · exact ih _ _ _

/-- Errors of `withdraw_funds_batch` leave the state unchanged with no
transfer. -/
theorem withdraw_funds_batch_err (env : Env) (s : Platform) (ids : List ℕ) (e : Error)
    (s' : Platform) (tr : List (ℕ × ℕ))
    (h : withdraw_funds_batch env s ids = ⟨.error e, s', tr⟩) : s' = s ∧ tr = [] := by
  unfold withdraw_funds_batch at h
  split at h
  · rw [Outcome.mk.injEq] at h
    exact ⟨h.2.1.symm, h.2.2.symm⟩
  · split at h
    · rw [Outcome.mk.injEq] at h
      exact ⟨h.2.1.symm, h.2.2.symm⟩
    · obtain ⟨r, s2, tr2, hr⟩ := withdraw_batch_loop_ok env ids { s with locked := true } ⟨0, 0, []⟩ []
      rw [hr, Outcome.mk.injEq] at h
      exact Except.noConfusion h.1

/-- Errors of `fund_matching_pool` leave the state unchanged with no
transfer. -/
theorem fund_matching_pool_err (env : Env) (s : Platform) (e : Error)
    (s' : Platform) (tr : List (ℕ × ℕ))
    (h : fund_matching_pool env s = ⟨.error e, s', tr⟩) : s' = s ∧ tr = [] := by
  unfold fund_matching_pool at h
  dsimp only at h
  repeat' split at h
  all_goals rw [Outcome.mk.injEq] at h
  all_goals first
    | exact ⟨h.2.1.symm, h.2.2.symm⟩
    | exact Except.noConfusion h.1

/-- Errors of `create_matching_round` leave the state unchanged with no
transfer (the post-insert `checked_sub` cannot fail: the pool bound was
checked on the unchanged balance). -/
theorem create_matching_round_err (env : Env) (s : Platform) (p d : ℕ) (e : Error)
    (s' : Platform) (tr : List (ℕ × ℕ))
    (h : create_matching_round env s p d = ⟨.error e, s', tr⟩) : s' = s ∧ tr = [] := by
  unfold create_matching_round at h
  dsimp only at h
  split at h
  · rw [Outcome.mk.injEq] at h
    exact ⟨h.2.1.symm, h.2.2.symm⟩
  · split at h
    · rw [Outcome.mk.injEq] at h
      exact ⟨h.2.1.symm, h.2.2.symm⟩
    · next hle =>
      split at h
      · next heq =>
        unfold checked_sub128 at heq
        rw [if_pos (by omega)] at heq
        exact Option.noConfusion heq
      · rw [Outcome.mk.injEq] at h
        exact Except.noConfusion h.1

/-- Errors of `calculate_and_distribute_matching` leave the state unchanged
with no transfer. -/
theorem calculate_and_distribute_matching_err (env : Env) (s : Platform) (rid : ℕ)
    (e : Error) (s' : Platform) (tr : List (ℕ × ℕ))
    (h : calculate_and_distribute_matching env s rid = ⟨.error e, s', tr⟩) :
    s' = s ∧ tr = [] := by
  unfold calculate_and_distribute_matching at h
  dsimp only at h
  repeat' split at h
  all_goals rw [Outcome.mk.injEq] at h
  all_goals first
    | exact ⟨h.2.1.symm, h.2.2.symm⟩
    | exact Except.noConfusion h.1

/-- Errors of `add_milestones` leave the state unchanged with no transfer. -/
theorem add_milestones_err (env : Env) (s : Platform) (campaign_id : ℕ)
    (data : List (String × ℕ × ℕ)) (e : Error) (s' : Platform) (tr : List (ℕ × ℕ))
    (h : add_milestones env s campaign_id data = ⟨.error e, s', tr⟩) : s' = s ∧ tr = [] := by
  unfold add_milestones at h
  dsimp only at h
  repeat' split at h
  all_goals rw [Outcome.mk.injEq] at h
  all_goals first
    | exact ⟨h.2.1.symm, h.2.2.symm⟩
    | exact Except.noConfusion h.1

/-- Errors of `activate_milestone_voting` leave the state unchanged with no
transfer. -/
theorem activate_milestone_voting_err (env : Env) (s : Platform)
    (campaign_id idx : ℕ) (e : Error) (s' : Platform) (tr : List (ℕ × ℕ))
    (h : activate_milestone_voting env s campaign_id idx = ⟨.error e, s', tr⟩) :
    s' = s ∧ tr = [] := by
  unfold activate_milestone_voting at h
  dsimp only at h
  repeat' split at h
  all_goals rw [Outcome.mk.injEq] at h
  all_goals first
    | exact ⟨h.2.1.symm, h.2.2.symm⟩
    | exact Except.noConfusion h.1

/-- Errors of `vote_on_milestone` leave the state unchanged with no
transfer. -/
theorem vote_on_milestone_err (env : Env) (s : Platform)
    (campaign_id idx : ℕ) (a : Bool) (e : Error) (s' : Platform) (tr : List (ℕ × ℕ))
    (h : vote_on_milestone env s campaign_id idx a = ⟨.error e, s', tr⟩) :
    s' = s ∧ tr = [] := by
  unfold vote_on_milestone at h
  dsimp only at h
  repeat' split at h
  all_goals rw [Outcome.mk.injEq] at h
  all_goals first
    | exact ⟨h.2.1.symm, h.2.2.symm⟩
    | exact Except.noConfusion h.1

/-- Errors of `release_milestone_funds` leave the state unchanged with no
transfer. -/
theorem release_milestone_funds_err (env : Env) (s : Platform)
    (campaign_id idx : ℕ) (e : Error) (s' : Platform) (tr : List (ℕ × ℕ))
    (h : release_milestone_funds env s campaign_id idx = ⟨.error e, s', tr⟩) :
    s' = s ∧ tr = [] := by
  unfold release_milestone_funds at h
  dsimp only at h
  repeat' split at h
  all_goals rw [Outcome.mk.injEq] at h
  all_goals first
    | exact ⟨h.2.1.symm, h.2.2.symm⟩
    | exact Except.noConfusion h.1

/-- Errors of `set_max_batch_size` leave the state unchanged with no
transfer. -/
theorem set_max_batch_size_err (env : Env) (s : Platform) (n : ℕ) (e : Error)
    (s' : Platform) (tr : List (ℕ × ℕ))
    (h : set_max_batch_size env s n = ⟨.error e, s', tr⟩) : s' = s ∧ tr = [] := by
  unfold set_max_batch_size at h
  split at h
  all_goals rw [Outcome.mk.injEq] at h
  all_goals first
    | exact ⟨h.2.1.symm, h.2.2.symm⟩
    | exact Except.noConfusion h.1

/-- Errors of `set_nft_contract` leave the state unchanged with no
transfer. -/
theorem set_nft_contract_err (env : Env) (s : Platform) (a : ℕ) (e : Error)
    (s' : Platform) (tr : List (ℕ × ℕ))
    (h : set_nft_contract env s a = ⟨.error e, s', tr⟩) : s' = s ∧ tr = [] := by
  unfold set_nft_contract at h
  split at h
  all_goals rw [Outcome.mk.injEq] at h
  all_goals first
    | exact ⟨h.2.1.symm, h.2.2.symm⟩
    | exact Except.noConfusion h.1

/-- Errors of `set_nft_enabled` leave the state unchanged with no
transfer. -/
theorem set_nft_enabled_err (env : Env) (s : Platform) (b : Bool) (e : Error)
    (s' : Platform) (tr : List (ℕ × ℕ))
    (h : set_nft_enabled env s b = ⟨.error e, s', tr⟩) : s' = s ∧ tr = [] := by
  unfold set_nft_enabled at h
  split at h
  all_goals rw [Outcome.mk.injEq] at h
  all_goals first
    | exact ⟨h.2.1.symm, h.2.2.symm⟩
    | exact Except.noConfusion h.1

/-- State written by the lazy deadline fail-over of `process_donation`: the
campaign (when present) marked Failed, all else unchanged. -/
def donate_fail_state (s : Platform) (campaign_id : ℕ) : Platform :=
  match s.campaigns campaign_id with
  | some campaign =>
    { s with campaigns :=
        mapInsert s.campaigns campaign_id (some { campaign with state := .Failed }) }
  | none => s

/-- The checked 3% fee computation yields exactly `amt * 3 / 100`. -/
theorem fee_value (amt fee : ℕ)
    (h : (checked_mul128 amt 3).bind (fun m => checked_div128 m 100) = some fee) :
    fee = amt * 3 / 100 := by
  unfold checked_mul128 at h
  split at h
  · rw [Option.some_bind] at h
    unfold checked_div128 at h
    split at h
    · exact Option.noConfusion h
    · injection h with h2
      exact h2.symm
  · rw [Option.none_bind] at h
    exact Option.noConfusion h

/-- Errors of `process_donation` leave the state unchanged — except the
`DeadlinePassed` error, which persists the campaign's Failed transition —
and either perform no transfer or only the 3% treasury fee transfer. -/
theorem process_donation_err (env : Env) (s : Platform) (campaign_id amt : ℕ)
    (e : Error) (s' : Platform) (tr : List (ℕ × ℕ))
    (h : process_donation env s campaign_id amt = ⟨.error e, s', tr⟩) :
    (s' = s ∨ (e = .DeadlinePassed ∧ s' = donate_fail_state s campaign_id)) ∧
    (tr = [] ∨ tr = [(s.treasury_account, amt * 3 / 100)]) := by
  unfold process_donation at h
  dsimp only at h
  split at h
  · rw [Outcome.mk.injEq] at h
    exact ⟨Or.inl h.2.1.symm, Or.inl h.2.2.symm⟩
  split at h
  · rw [Outcome.mk.injEq] at h
    exact ⟨Or.inl h.2.1.symm, Or.inl h.2.2.symm⟩
  split at h
  · rw [Outcome.mk.injEq] at h
    exact ⟨Or.inl h.2.1.symm, Or.inl h.2.2.symm⟩
  next fee hfeeEq =>
    have hfee : fee = amt * 3 / 100 := fee_value amt fee hfeeEq
    have htr_shape : (if fee > 0 then [(s.treasury_account, fee)] else []) = [] ∨
        (if fee > 0 then [(s.treasury_account, fee)] else [])
          = [(s.treasury_account, amt * 3 / 100)] := by
      split
      · right
        rw [hfee]
      · left
        rfl
    split at h
    · rw [Outcome.mk.injEq] at h
      exact ⟨Or.inl h.2.1.symm, Or.inl h.2.2.symm⟩
    · split at h
      · rw [Outcome.mk.injEq] at h
        exact ⟨Or.inl h.2.1.symm, h.2.2 ▸ htr_shape⟩
      next c hc =>
        split at h
        · rw [Outcome.mk.injEq] at h
          exact ⟨Or.inl h.2.1.symm, h.2.2 ▸ htr_shape⟩
        · split at h
          · rw [Outcome.mk.injEq] at h
            refine ⟨Or.inr ⟨?_, ?_⟩, h.2.2 ▸ htr_shape⟩
            · injection h.1 with h1
              exact h1.symm
            · rw [← h.2.1]
              unfold donate_fail_state
              rw [hc]
          · split at h
            · rw [Outcome.mk.injEq] at h
              exact ⟨Or.inl h.2.1.symm, h.2.2 ▸ htr_shape⟩
            · split at h
              · rw [Outcome.mk.injEq] at h
                exact ⟨Or.inl h.2.1.symm, h.2.2 ▸ htr_shape⟩
              · split at h
                all_goals rw [Outcome.mk.injEq] at h
                all_goals exact Except.noConfusion h.1

/-- Unlocking after the lazy deadline fail-over from the locked state gives
the fail-over of the unlocked state. -/
theorem donate_fail_state_unlock (s : Platform) (campaign_id : ℕ) (h : s.locked = false) :
    { (donate_fail_state { s with locked := true } campaign_id) with locked := false }
      = donate_fail_state s campaign_id := by
  obtain ⟨cam, don, ref, cc, adm, lk, ver, mbs, nc, ne, mpb, cr, mr, rc, ud, mv, ta⟩ := s
  simp only at h
  subst h
  unfold donate_fail_state
  dsimp only
  rcases cam campaign_id with _ | c <;> rfl

/-- Errors of `donate` leave the state unchanged — except `DeadlinePassed`,
which persists the campaign's Failed transition — and either perform no
transfer or only the 3% treasury fee transfer. -/
theorem donate_err (env : Env) (s : Platform) (campaign_id : ℕ)
    (e : Error) (s' : Platform) (tr : List (ℕ × ℕ))
    (h : donate env s campaign_id = ⟨.error e, s', tr⟩) :
    (s' = s ∨ (e = .DeadlinePassed ∧ s' = donate_fail_state s campaign_id)) ∧
    (tr = [] ∨ tr = [(s.treasury_account, env.transferred_value * 3 / 100)]) := by
  unfold donate at h
  dsimp only at h
  split at h
  · rw [Outcome.mk.injEq] at h
    exact ⟨Or.inl h.2.1.symm, Or.inl h.2.2.symm⟩
  next hlk =>
    have hlk2 : s.locked = false := by
      revert hlk
      cases s.locked <;> simp
    rw [Outcome.mk.injEq] at h
    obtain ⟨h1, h2, h3⟩ := h
    have hp : process_donation env { s with locked := true } campaign_id
        env.transferred_value =
        ⟨.error e,
         (process_donation env { s with locked := true } campaign_id
           env.transferred_value).state,
         (process_donation env { s with locked := true } campaign_id
           env.transferred_value).transfers⟩ := by
      rw [← h1]
    obtain ⟨hs, ht⟩ := process_donation_err _ _ _ _ _ _ _ hp
    constructor
    · rcases hs with hs | ⟨he, hs⟩
      · left
        rw [← h2, hs]
        exact set_locked_false s hlk2
      · right
        refine ⟨he, ?_⟩
        rw [← h2, hs]
        exact donate_fail_state_unlock s campaign_id hlk2
    · rw [← h3]
      exact ht

/-- Errors of `claim_refund` leave the state unchanged (a failed transfer
rolls the claim marker back to its stored value) with no transfer. -/
theorem claim_refund_err (env : Env) (s : Platform) (campaign_id : ℕ)
    (e : Error) (s' : Platform) (tr : List (ℕ × ℕ))
    (h : claim_refund env s campaign_id = ⟨.error e, s', tr⟩) : s' = s ∧ tr = [] := by
  obtain ⟨cam, don, ref, cc, adm, lk, ver, mbs, nc, ne, mpb, cr, mr, rc, ud, mv, ta⟩ := s
  unfold claim_refund at h
  dsimp only at h
  split at h
  · rw [Outcome.mk.injEq] at h
    exact ⟨h.2.1.symm, h.2.2.symm⟩
  next hlk =>
    have hlk2 : lk = false := by
      revert hlk
      cases lk <;> simp
    subst hlk2
    split at h
    · rw [Outcome.mk.injEq] at h
      exact ⟨h.2.1.symm, h.2.2.symm⟩
    · split at h
      · rw [Outcome.mk.injEq] at h
        exact ⟨h.2.1.symm, h.2.2.symm⟩
      · split at h
        · rw [Outcome.mk.injEq] at h
          exact ⟨h.2.1.symm, h.2.2.symm⟩
        next hnc =>
          split at h
          · rw [Outcome.mk.injEq] at h
            exact ⟨h.2.1.symm, h.2.2.symm⟩
          · split at h
            · rw [Outcome.mk.injEq] at h
              exact ⟨h.2.1.symm, h.2.2.symm⟩
            · split at h
              · rw [Outcome.mk.injEq] at h
                exact Except.noConfusion h.1
              · rw [Outcome.mk.injEq] at h
                refine ⟨?_, h.2.2.symm⟩
                rw [← h.2.1]
                have hmark : ref (campaign_id, env.caller) = false := by
                  revert hnc
                  cases ref (campaign_id, env.caller) <;> simp
                rw [mapInsert_cancel ref (campaign_id, env.caller) true false hmark]

/-- An erased outcome carrying an error determines the outcome's shape. -/
theorem erase_err {α : Type} (o : Outcome α) (e : Error)
    (h : o.erase.1 = some e) : o = ⟨.error e, o.erase.2.1, o.erase.2.2⟩ := by
  rcases o with ⟨r, st, tr⟩
  rcases r with e2 | v
  · unfold Outcome.erase at h ⊢
    dsimp at h ⊢
    injection h with h2
    rw [h2]
  · unfold Outcome.erase at h
    dsimp at h
    exact Option.noConfusion h

/-- C2 (amended): whenever a state-mutating entry point returns an error,
the stored state is exactly what it was before the call and no transfer was
performed — except `donate`, whose errors raised after the treasury fee
transfer leave that 3% fee transferred, and whose `DeadlinePassed` error
additionally persists the campaign's Active→Failed transition; every other
`donate` error, and every error of every other entry point, leaves the
state unchanged with no transfer. -/
theorem c2_error_rollback (op : Op) (env : Env) (s : Platform) (e : Error)
    (h : step_err op env s = some e) :
    (match op with
     | .donate campaign_id =>
        (step_state op env s = s ∨
          (e = .DeadlinePassed ∧ step_state op env s = donate_fail_state s campaign_id)) ∧
        (step_transfers op env s = [] ∨
          step_transfers op env s
            = [(s.treasury_account, env.transferred_value * 3 / 100)])
     | _ => step_state op env s = s ∧ step_transfers op env s = []) := by
  cases op with
  | createCampaign t d g dl b =>
    exact create_campaign_err env s t d g dl b e _ _ (erase_err _ e h)
  | createCampaignsBatch data =>
    exact create_campaigns_batch_err env s data e _ _ (erase_err _ e h)
  | donate cid => exact donate_err env s cid e _ _ (erase_err _ e h)
  | withdrawFunds cid => exact withdraw_funds_err env s cid e _ _ (erase_err _ e h)
  | withdrawFundsBatch ids =>
    exact withdraw_funds_batch_err env s ids e _ _ (erase_err _ e h)
  | cancelCampaign cid => exact cancel_campaign_err env s cid e _ _ (erase_err _ e h)
  | claimRefund cid => exact claim_refund_err env s cid e _ _ (erase_err _ e h)
  | fundMatchingPool => exact fund_matching_pool_err env s e _ _ (erase_err _ e h)
  | createMatchingRound p d =>
    exact create_matching_round_err env s p d e _ _ (erase_err _ e h)
  | calculateAndDistributeMatching rid =>
    exact calculate_and_distribute_matching_err env s rid e _ _ (erase_err _ e h)
  | addMilestones cid data =>
    exact add_milestones_err env s cid data e _ _ (erase_err _ e h)
  | activateMilestoneVoting cid idx =>
    exact activate_milestone_voting_err env s cid idx e _ _ (erase_err _ e h)
  | voteOnMilestone cid idx a =>
    exact vote_on_milestone_err env s cid idx a e _ _ (erase_err _ e h)
  | releaseMilestoneFunds cid idx =>
    exact release_milestone_funds_err env s cid idx e _ _ (erase_err _ e h)
  | setMaxBatchSize n => exact set_max_batch_size_err env s n e _ _ (erase_err _ e h)
  | setNftContract a => exact set_nft_contract_err env s a e _ _ (erase_err _ e h)
  | setNftEnabled b => exact set_nft_enabled_err env s b e _ _ (erase_err _ e h)

/-- C2 witness: a failing `cancel_campaign` call on the fresh engine leaves
it unchanged with no transfer. -/
theorem c2_witness :
    step_state (.cancelCampaign 0) env_create (new 0) = new 0 ∧
    step_transfers (.cancelCampaign 0) env_create (new 0) = [] :=
  c2_error_rollback (.cancelCampaign 0) env_create (new 0) .CampaignNotFound (by decide)

/-- Late donor paying 1000000 after the campaign deadline. -/
def env_late_donor : Env := ⟨2, 5000000, 1000000, fun _ _ => true⟩

/-- Reachable state with one Active campaign whose deadline is 4000000. -/
def c2_cex_state : Platform :=
  step_state (.createCampaign "t" "d" 10000000 4000000 3) env_create (new 0)

/-- C2 counterexample: a `donate` past the deadline returns the
`DeadlinePassed` error yet persists the campaign's Active→Failed transition
and has already transferred the 3% fee (30000 of 1000000) to the treasury
— an error return with mutated state and a performed transfer. -/
theorem c2_counterexample :
    Reachable c2_cex_state ∧
    step_err (.donate 0) env_late_donor c2_cex_state = some .DeadlinePassed ∧
    (c2_cex_state.campaigns 0).map Campaign.state = some .Active ∧
    ((step_state (.donate 0) env_late_donor c2_cex_state).campaigns 0).map Campaign.state
      = some .Failed ∧
    step_transfers (.donate 0) env_late_donor c2_cex_state = [(0, 30000)] :=
  ⟨Reachable.step _ _ (Reachable.init 0), by decide, by decide, by decide, by decide⟩

/-- Point lookup of an insertion at its own key. -/
theorem mapInsert_self {α β : Type} [DecidableEq α] (f : α → β) (k : α) (v : β) :
    mapInsert f k v k = v := by
  unfold mapInsert
  rw [if_pos rfl]

/-- Point lookup of an insertion at a different key. -/
theorem mapInsert_ne {α β : Type} [DecidableEq α] (f : α → β) (k k2 : α) (v : β)
    (h : k2 ≠ k) : mapInsert f k v k2 = f k2 := by
  unfold mapInsert
  rw [if_neg h]

/-- Sum of the recorded donation amounts of a ledger. -/
def donation_sum (l : List Donation) : ℕ := (l.map Donation.amount).sum

/-- Inductive invariant of reachable engine states: ids at or beyond the
counter are unused; every campaign's ledger sums to its gross `raised`; its
goal is positive; and a Successful campaign has met its goal. -/
def Inv (s : Platform) : Prop :=
  (∀ campaign_id, s.campaign_count ≤ campaign_id → s.campaigns campaign_id = none) ∧
  (∀ campaign_id c, s.campaigns campaign_id = some c →
    donation_sum (s.campaign_donations campaign_id) = c.raised ∧
    0 < c.goal ∧
    (c.state = .Successful → c.goal ≤ c.raised))

/-- Re-inserting a campaign with unchanged `raised`, `goal`, ledger, and a
state that is Successful only if it already was, preserves the invariant. -/
theorem Inv_insert_preserve (s : Platform) (hInv : Inv s) (campaign_id : ℕ)
    (c c2 : Campaign) (hc : s.campaigns campaign_id = some c)
    (hr : c2.raised = c.raised) (hg : c2.goal = c.goal)
    (hst : c2.state = .Successful → c.state = .Successful) :
    Inv { s with campaigns := mapInsert s.campaigns campaign_id (some c2) } := by
  constructor
  · intro cid hcid
    show mapInsert s.campaigns campaign_id (some c2) cid = none
    by_cases hx : cid = campaign_id
    · exfalso
      have h0 := hInv.1 cid hcid
      rw [hx, hc] at h0
      exact Option.noConfusion h0
    · rw [mapInsert_ne _ _ _ _ hx]
      exact hInv.1 cid hcid
  · intro cid c3 hc3
    dsimp only at hc3 ⊢
    by_cases hx : cid = campaign_id
    · subst hx
      rw [mapInsert_self] at hc3
      injection hc3 with hc3'
      subst hc3'
      obtain ⟨h1, h2, h3⟩ := hInv.2 cid c hc
      refine ⟨?_, ?_, ?_⟩
      · rw [hr]
        exact h1
      · rw [hg]
        exact h2
      · intro hsucc
        rw [hr, hg]
        exact h3 (hst hsucc)
    · rw [mapInsert_ne _ _ _ _ hx] at hc3
      exact hInv.2 cid c3 hc3

/-- Invariant preservation by `create_campaign`. -/
theorem create_campaign_inv (env : Env) (s : Platform) (t d : String) (g dl b : ℕ)
    (hInv : Inv s) : Inv (create_campaign env s t d g dl b).state := by
  unfold create_campaign
  dsimp only
  split
  · exact hInv
  split
  · exact hInv
  split
  · exact hInv
  next hg =>
  split
  · exact hInv
  split
  · exact hInv
  · constructor
    · intro cid hcid
      dsimp only at hcid
      show mapInsert s.campaigns s.campaign_count _ cid = none
      rw [mapInsert_ne _ _ _ _ (by omega)]
      exact hInv.1 cid (by omega)
    · intro cid c hc
      dsimp only at hc ⊢
      by_cases hx : cid = s.campaign_count
      · subst hx
        rw [mapInsert_self] at hc
        injection hc with hc'
        subst hc'
        refine ⟨?_, ?_, ?_⟩
        · show donation_sum
            (mapInsert s.campaign_donations s.campaign_count [] s.campaign_count) = (0 : ℕ)
          rw [mapInsert_self]
          rfl
        · show 0 < g
          omega
        · intro h
          exact CampaignState.noConfusion h
      · rw [mapInsert_ne _ _ _ _ hx] at hc
        obtain ⟨h1, h2, h3⟩ := hInv.2 cid c hc
        refine ⟨?_, h2, h3⟩
        show donation_sum (mapInsert s.campaign_donations s.campaign_count [] cid) = c.raised
        rw [mapInsert_ne _ _ _ _ hx]
        exact h1

/-- Invariant preservation by the batch-creation loop. -/
theorem create_batch_loop_inv (env : Env) (data : List (String × String × ℕ × ℕ × ℕ)) :
    ∀ (s : Platform) (acc : BatchResult), Inv s →
      Inv (create_batch_loop env data s acc).state := by
  induction data with
  | nil => intro s acc h; exact h
  | cons hd tl ih =>
    intro s acc h
    obtain ⟨t, d, g, dl, b⟩ := hd
    unfold create_batch_loop
    dsimp only
    have hstep := create_campaign_inv env s t d g dl b h
    split <;> exact ih _ _ hstep

/-- Invariant preservation by `create_campaigns_batch`. -/
theorem create_campaigns_batch_inv (env : Env) (s : Platform)
    (data : List (String × String × ℕ × ℕ × ℕ)) (hInv : Inv s) :
    Inv (create_campaigns_batch env s data).state := by
  unfold create_campaigns_batch
  split
  · exact hInv
  · exact create_batch_loop_inv env data s ⟨0, 0, []⟩ hInv

/-- Invariant preservation by `process_donation`. -/
theorem process_donation_inv (env : Env) (s : Platform) (campaign_id amt : ℕ)
    (hInv : Inv s) : Inv (process_donation env s campaign_id amt).state := by
  unfold process_donation
  dsimp only
  split
  · exact hInv
  split
  · exact hInv
  split
  · exact hInv
  split
  · exact hInv
  split
  · exact hInv
  next c hc =>
  split
  · exact hInv
  next hactive =>
  have hact : c.state = .Active := by
    revert hactive
    by_cases hcs : c.state = CampaignState.Active <;> simp [hcs]
  split
  · exact Inv_insert_preserve s hInv campaign_id c _ hc rfl rfl
      (fun h => CampaignState.noConfusion h)
  · split
    · exact hInv
    next raised2 hadd =>
    split
    · exact hInv
    next count2 hadd32 =>
    have hraised2 : raised2 = c.raised + amt := by
      unfold checked_add128 at hadd
      split at hadd
      · injection hadd with h2
        exact h2.symm
      · exact Option.noConfusion hadd
    -- success branch: campaign re-inserted with raised2, ledger appended
    have hbase := hInv.2 campaign_id c hc
    split
    all_goals {
      constructor
      · intro cid hcid
        dsimp only at hcid
        show mapInsert _ campaign_id _ cid = none
        by_cases hx : cid = campaign_id
        · exfalso
          have h0 := hInv.1 cid hcid
          rw [hx, hc] at h0
          exact Option.noConfusion h0
        · rw [mapInsert_ne _ _ _ _ hx]
          exact hInv.1 cid hcid
      · intro cid c3 hc3
        dsimp only at hc3 ⊢
        by_cases hx : cid = campaign_id
        · subst hx
          rw [mapInsert_self] at hc3
          injection hc3 with hc3'
          subst hc3'
          refine ⟨?_, hbase.2.1, ?_⟩
          · show donation_sum (mapInsert s.campaign_donations cid
              (s.campaign_donations cid ++ [⟨env.caller, amt, env.block_timestamp⟩]) cid)
              = raised2
            rw [mapInsert_self]
            unfold donation_sum at hbase ⊢
            rw [List.map_append, List.sum_append, hbase.1, hraised2]
            simp
          · intro hsucc
            dsimp only at hsucc ⊢
            split at hsucc
            · omega
            · have := hbase.2.2 hsucc
              omega
        · rw [mapInsert_ne _ _ _ _ hx] at hc3
          obtain ⟨h1, h2, h3⟩ := hInv.2 cid c3 hc3
          refine ⟨?_, h2, h3⟩
          show donation_sum (mapInsert s.campaign_donations campaign_id _ cid) = c3.raised
          rw [mapInsert_ne _ _ _ _ hx]
          exact h1 }

/-- Invariant preservation by `donate`. -/
theorem donate_inv (env : Env) (s : Platform) (campaign_id : ℕ) (hInv : Inv s) :
    Inv (donate env s campaign_id).state := by
  unfold donate
  dsimp only
  split
  · exact hInv
  · exact process_donation_inv env { s with locked := true } campaign_id
      env.transferred_value hInv

/-- Invariant preservation by `process_withdrawal`. -/
theorem process_withdrawal_inv (env : Env) (s : Platform) (campaign_id : ℕ)
    (hInv : Inv s) : Inv (process_withdrawal env s campaign_id).state := by
  unfold process_withdrawal
  dsimp only
  split
  · exact hInv
  next c hc =>
  split
  · exact hInv
  split
  · exact hInv
  split
  · exact hInv
  split
  · exact Inv_insert_preserve s hInv campaign_id c _ hc rfl rfl
      (fun h => CampaignState.noConfusion h)
  · split
    · exact hInv
    split
    · exact hInv
    split
    · exact hInv
    split
    · exact hInv
    · exact Inv_insert_preserve s hInv campaign_id c _ hc rfl rfl
        (fun h => CampaignState.noConfusion h)

/-- Invariant preservation by `withdraw_funds`. -/
theorem withdraw_funds_inv (env : Env) (s : Platform) (campaign_id : ℕ) (hInv : Inv s) :
    Inv (withdraw_funds env s campaign_id).state := by
  unfold withdraw_funds
  dsimp only
  split
  · exact hInv
  · exact process_withdrawal_inv env { s with locked := true } campaign_id hInv

/-- Invariant preservation by the batch-withdrawal loop. -/
theorem withdraw_batch_loop_inv (env : Env) (ids : List ℕ) :
    ∀ (s : Platform) (acc : BatchResult) (trs : List (ℕ × ℕ)), Inv s →
      Inv (withdraw_batch_loop env ids s acc trs).state := by
  induction ids with
  | nil => intro s acc trs h; exact h
  | cons hd tl ih =>
    intro s acc trs h
    unfold withdraw_batch_loop
    dsimp only
    have hstep := process_withdrawal_inv env s hd h
    split <;> exact ih _ _ _ hstep

/-- Invariant preservation by `withdraw_funds_batch`. -/
theorem withdraw_funds_batch_inv (env : Env) (s : Platform) (ids : List ℕ)
    (hInv : Inv s) : Inv (withdraw_funds_batch env s ids).state := by
  unfold withdraw_funds_batch
  dsimp only
  split
  · exact hInv
  split
  · exact hInv
  · exact withdraw_batch_loop_inv env ids { s with locked := true } ⟨0, 0, []⟩ [] hInv

/-- Invariant preservation by `cancel_campaign`. -/
theorem cancel_campaign_inv (env : Env) (s : Platform) (campaign_id : ℕ) (hInv : Inv s) :
    Inv (cancel_campaign env s campaign_id).state := by
  unfold cancel_campaign
  split
  · exact hInv
  next c hc =>
  split
  · exact hInv
  split
  · exact hInv
  · exact Inv_insert_preserve s hInv campaign_id c _ hc rfl rfl
      (fun h => CampaignState.noConfusion h)

/-- Invariant preservation by `claim_refund` (the campaign map and ledgers
are untouched). -/
theorem claim_refund_inv (env : Env) (s : Platform) (campaign_id : ℕ) (hInv : Inv s) :
    Inv (claim_refund env s campaign_id).state := by
  unfold claim_refund
  dsimp only
  repeat' split
  all_goals exact hInv

/-- Invariant preservation by `fund_matching_pool`. -/
theorem fund_matching_pool_inv (env : Env) (s : Platform) (hInv : Inv s) :
    Inv (fund_matching_pool env s).state := by
  unfold fund_matching_pool
  dsimp only
  repeat' split
  all_goals exact hInv

/-- Invariant preservation by `create_matching_round`. -/
theorem create_matching_round_inv (env : Env) (s : Platform) (p d : ℕ) (hInv : Inv s) :
    Inv (create_matching_round env s p d).state := by
  unfold create_matching_round
  dsimp only
  repeat' split
  all_goals exact hInv

/-- Invariant preservation by the distribution write loop. -/
theorem distribute_write_inv (pool total : ℕ) (l : List (ℕ × ℕ)) :
    ∀ (s : Platform), Inv s → Inv (distribute_write pool total l s) := by
  induction l with
  | nil => intro s h; exact h
  | cons hd tl ih =>
    intro s h
    obtain ⟨cid, q⟩ := hd
    unfold distribute_write
    dsimp only
    apply ih
    split
    · next c hc =>
      exact Inv_insert_preserve s h cid c _ hc rfl rfl (fun h2 => h2)
    · exact h

/-- Invariant preservation by `calculate_and_distribute_matching`. -/
theorem calculate_and_distribute_matching_inv (env : Env) (s : Platform) (rid : ℕ)
    (hInv : Inv s) : Inv (calculate_and_distribute_matching env s rid).state := by
  unfold calculate_and_distribute_matching
  dsimp only
  split
  · exact hInv
  split
  · exact hInv
  split
  · exact hInv
  split
  · exact hInv
  · repeat' split
    all_goals first
      | exact distribute_write_inv _ _ _ s hInv
      | exact hInv

/-- Invariant preservation by `add_milestones`. -/
theorem add_milestones_inv (env : Env) (s : Platform) (campaign_id : ℕ)
    (data : List (String × ℕ × ℕ)) (hInv : Inv s) :
    Inv (add_milestones env s campaign_id data).state := by
  unfold add_milestones
  dsimp only
  split
  · exact hInv
  next c hc =>
  split
  · exact hInv
  split
  · exact hInv
  split
  · exact hInv
  split
  · exact hInv
  · exact Inv_insert_preserve s hInv campaign_id c _ hc rfl rfl (fun h2 => h2)

/-- Invariant preservation by `activate_milestone_voting`. -/
theorem activate_milestone_voting_inv (env : Env) (s : Platform) (campaign_id idx : ℕ)
    (hInv : Inv s) : Inv (activate_milestone_voting env s campaign_id idx).state := by
  unfold activate_milestone_voting
  dsimp only
  split
  · exact hInv
  next c hc =>
  repeat' split
  all_goals first
    | exact hInv
    | exact Inv_insert_preserve s hInv campaign_id c _ hc rfl rfl (fun h2 => h2)

/-- Invariant preservation by `vote_on_milestone`. -/
theorem vote_on_milestone_inv (env : Env) (s : Platform) (campaign_id idx : ℕ)
    (a : Bool) (hInv : Inv s) : Inv (vote_on_milestone env s campaign_id idx a).state := by
  unfold vote_on_milestone
  dsimp only
  split
  · exact hInv
  next c hc =>
  repeat' split
  all_goals first
    | exact hInv
    | exact Inv_insert_preserve _ hInv campaign_id c _ hc rfl rfl (fun h2 => h2)

/-- Invariant preservation by `release_milestone_funds`. -/
theorem release_milestone_funds_inv (env : Env) (s : Platform) (campaign_id idx : ℕ)
    (hInv : Inv s) : Inv (release_milestone_funds env s campaign_id idx).state := by
  unfold release_milestone_funds
  dsimp only
  split
  · exact hInv
  next c hc =>
  repeat' split
  all_goals first
    | exact hInv
    | exact Inv_insert_preserve s hInv campaign_id c _ hc rfl rfl (by
        intro h2
        dsimp only at h2
        first
          | exact absurd h2 (by decide)
          | exact h2)

/-- Invariant preservation by `set_max_batch_size`, `set_nft_contract`,
`set_nft_enabled`. -/
theorem setters_inv (env : Env) (s : Platform) (n a : ℕ) (b : Bool) (hInv : Inv s) :
    Inv (set_max_batch_size env s n).state ∧ Inv (set_nft_contract env s a).state ∧
    Inv (set_nft_enabled env s b).state := by
  unfold set_max_batch_size set_nft_contract set_nft_enabled
  refine ⟨?_, ?_, ?_⟩ <;> (dsimp only; split) <;> exact hInv

/-- Invariant preservation by every entry-point call. -/
theorem step_inv (op : Op) (env : Env) (s : Platform) (hInv : Inv s) :
    Inv (step_state op env s) := by
  cases op with
  | createCampaign t d g dl b => exact create_campaign_inv env s t d g dl b hInv
  | createCampaignsBatch data => exact create_campaigns_batch_inv env s data hInv
  | donate cid => exact donate_inv env s cid hInv
  | withdrawFunds cid => exact withdraw_funds_inv env s cid hInv
  | withdrawFundsBatch ids => exact withdraw_funds_batch_inv env s ids hInv
  | cancelCampaign cid => exact cancel_campaign_inv env s cid hInv
  | claimRefund cid => exact claim_refund_inv env s cid hInv
  | fundMatchingPool => exact fund_matching_pool_inv env s hInv
  | createMatchingRound p d => exact create_matching_round_inv env s p d hInv
  | calculateAndDistributeMatching rid =>
    exact calculate_and_distribute_matching_inv env s rid hInv
  | addMilestones cid data => exact add_milestones_inv env s cid data hInv
  | activateMilestoneVoting cid idx => exact activate_milestone_voting_inv env s cid idx hInv
  | voteOnMilestone cid idx a => exact vote_on_milestone_inv env s cid idx a hInv
  | releaseMilestoneFunds cid idx => exact release_milestone_funds_inv env s cid idx hInv
  | setMaxBatchSize n => exact (setters_inv env s n 0 false hInv).1
  | setNftContract a => exact (setters_inv env s 0 a false hInv).2.1
  | setNftEnabled b => exact (setters_inv env s 0 0 b hInv).2.2

/-- Every reachable state satisfies the invariant. -/
theorem reachable_inv (s : Platform) (hs : Reachable s) : Inv s := by
  induction hs with
  | init caller => exact ⟨fun _ _ => rfl, fun _ _ h => Option.noConfusion h⟩
  | migrate caller k => exact ⟨fun _ _ => rfl, fun _ _ h => Option.noConfusion h⟩
  | step op env hr ih => exact step_inv op env _ ih

/-- Campaign state transitions the code can make (the spec's set plus the
direct `Active → Withdrawn` of a funded expired campaign withdrawn without
ever being marked Failed). -/
def state_transition_ok (a b : CampaignState) : Bool :=
  match a, b with
  | .Active, .Successful => true
  | .Active, .Failed => true
  | .Active, .Withdrawn => true
  | .Successful, .Withdrawn => true
  | .Failed, .Withdrawn => true
  | _, _ => false

/-- Campaign state transitions the claim allows (no `Active → Withdrawn`). -/
def claimed_transition_ok (a b : CampaignState) : Bool :=
  match a, b with
  | .Active, .Successful => true
  | .Active, .Failed => true
  | .Successful, .Withdrawn => true
  | .Failed, .Withdrawn => true
  | _, _ => false

/-- The reflexive transition relation is transitive. -/
theorem transition_trans : ∀ a b c : CampaignState,
    (b = a ∨ state_transition_ok a b = true) →
    (c = b ∨ state_transition_ok b c = true) →
    (c = a ∨ state_transition_ok a c = true) := by
  decide

/-- `create_campaign` never modifies an existing campaign record. -/
theorem create_campaign_existing (env : Env) (s : Platform) (t d : String)
    (g dl b : ℕ) (hInv : Inv s) (cid : ℕ) (c c' : Campaign)
    (hc : s.campaigns cid = some c)
    (hc' : (create_campaign env s t d g dl b).state.campaigns cid = some c') :
    c' = c := by
  unfold create_campaign at hc'
  dsimp only at hc'
  repeat' split at hc'
  all_goals try dsimp only at hc'
  all_goals first
    | (have h2 := hc.symm.trans hc'
       injection h2 with h3
       exact h3.symm)
    | (by_cases hx : cid = s.campaign_count
       · exfalso
         have h0 := hInv.1 s.campaign_count le_rfl
         rw [hx, h0] at hc
         exact Option.noConfusion hc
       · rw [mapInsert_ne _ _ _ _ hx] at hc'
         have h2 := hc.symm.trans hc'
         injection h2 with h3
         exact h3.symm)

/-- Transitions made by `process_donation`. -/
theorem process_donation_transitions (env : Env) (s : Platform) (campaign_id amt : ℕ)
    (cid : ℕ) (c c' : Campaign) (hc : s.campaigns cid = some c)
    (hc' : (process_donation env s campaign_id amt).state.campaigns cid = some c') :
    c'.state = c.state ∨ state_transition_ok c.state c'.state = true := by
  unfold process_donation at hc'
  dsimp only at hc'
  split at hc'
  · left
    have h2 := hc.symm.trans hc'
    injection h2 with h3
    rw [h3]
  split at hc'
  · left
    have h2 := hc.symm.trans hc'
    injection h2 with h3
    rw [h3]
  split at hc'
  · left
    have h2 := hc.symm.trans hc'
    injection h2 with h3
    rw [h3]
  split at hc'
  · left
    have h2 := hc.symm.trans hc'
    injection h2 with h3
    rw [h3]
  split at hc'
  · left
    have h2 := hc.symm.trans hc'
    injection h2 with h3
    rw [h3]
  next campaign hcamp =>
  split at hc'
  · left
    have h2 := hc.symm.trans hc'
    injection h2 with h3
    rw [h3]
  next hactive =>
  have hact : campaign.state = .Active := by
    revert hactive
    by_cases h4 : campaign.state = CampaignState.Active <;> simp [h4]
  split at hc'
  · -- lazy deadline fail-over: the campaign is re-inserted as Failed
    dsimp only at hc'
    by_cases hx : cid = campaign_id
    · subst hx
      rw [mapInsert_self] at hc'
      injection hc' with h3
      subst h3
      have hce : campaign = c := by
        have h2 := hc.symm.trans hcamp
        injection h2 with h4
        exact h4.symm
      subst hce
      right
      dsimp only
      rw [hact]
      rfl
    · rw [mapInsert_ne _ _ _ _ hx] at hc'
      left
      have h2 := hc.symm.trans hc'
      injection h2 with h3
      rw [h3]
  · split at hc'
    · left
      have h2 := hc.symm.trans hc'
      injection h2 with h3
      rw [h3]
    next raised2 hradd =>
    split at hc'
    · left
      have h2 := hc.symm.trans hc'
      injection h2 with h3
      rw [h3]
    next count2 hcadd =>
    rw [apply_ite (fun st : Platform => st.campaigns cid)] at hc'
    dsimp only at hc'
    rw [ite_self] at hc'
    by_cases hx : cid = campaign_id
    · subst hx
      rw [mapInsert_self] at hc'
      injection hc' with h3
      subst h3
      have hce : campaign = c := by
        have h2 := hc.symm.trans hcamp
        injection h2 with h4
        exact h4.symm
      subst hce
      dsimp only
      split
      · right
        rw [hact]
        rfl
      · left
        rfl
    · rw [mapInsert_ne _ _ _ _ hx] at hc'
      left
      have h2 := hc.symm.trans hc'
      injection h2 with h3
      rw [h3]

/-- Transitions made by `donate`. -/
theorem donate_transitions (env : Env) (s : Platform) (campaign_id : ℕ)
    (cid : ℕ) (c c' : Campaign) (hc : s.campaigns cid = some c)
    (hc' : (donate env s campaign_id).state.campaigns cid = some c') :
    c'.state = c.state ∨ state_transition_ok c.state c'.state = true := by
  unfold donate at hc'
  dsimp only at hc'
  split at hc'
  all_goals try dsimp only at hc'
  · left
    have h2 := hc.symm.trans hc'
    injection h2 with h3
    rw [h3]
  · exact process_donation_transitions env { s with locked := true } campaign_id
      env.transferred_value cid c c' hc hc'

/-- Transitions made by `process_withdrawal` from a state satisfying the
invariant. -/
theorem process_withdrawal_transitions (env : Env) (s : Platform) (campaign_id : ℕ)
    (hInv : Inv s) (cid : ℕ) (c c' : Campaign) (hc : s.campaigns cid = some c)
    (hc' : (process_withdrawal env s campaign_id).state.campaigns cid = some c') :
    c'.state = c.state ∨ state_transition_ok c.state c'.state = true := by
  unfold process_withdrawal at hc'
  dsimp only at hc'
  split at hc'
  · left
    have h2 := hc.symm.trans hc'
    injection h2 with h3
    rw [h3]
  next campaign hcamp =>
  split at hc'
  · left
    have h2 := hc.symm.trans hc'
    injection h2 with h3
    rw [h3]
  split at hc'
  · left
    have h2 := hc.symm.trans hc'
    injection h2 with h3
    rw [h3]
  next hwd =>
  have hnw : campaign.state ≠ .Withdrawn := by
    revert hwd
    by_cases h4 : campaign.state = CampaignState.Withdrawn <;> simp [h4]
  split at hc'
  · left
    have h2 := hc.symm.trans hc'
    injection h2 with h3
    rw [h3]
  split at hc'
  · -- zero-funds write: campaign re-inserted as Failed
    next hzero =>
    dsimp only at hc'
    by_cases hx : cid = campaign_id
    · subst hx
      rw [mapInsert_self] at hc'
      injection hc' with h3
      subst h3
      have hce : campaign = c := by
        have h2 := hc.symm.trans hcamp
        injection h2 with h4
        exact h4.symm
      subst hce
      rcases hs4 : campaign.state with h5 | h5 | h5 | h5
      · right
        rfl
      · exfalso
        obtain ⟨h6, h7, h8⟩ := hInv.2 cid campaign hcamp
        have h9 := h8 hs4
        omega
      · left
        rfl
      · exact absurd hs4 hnw
    · rw [mapInsert_ne _ _ _ _ hx] at hc'
      left
      have h2 := hc.symm.trans hc'
      injection h2 with h3
      rw [h3]
  · split at hc'
    · left
      have h2 := hc.symm.trans hc'
      injection h2 with h3
      rw [h3]
    split at hc'
    · left
      have h2 := hc.symm.trans hc'
      injection h2 with h3
      rw [h3]
    split at hc'
    · left
      have h2 := hc.symm.trans hc'
      injection h2 with h3
      rw [h3]
    split at hc'
    · left
      have h2 := hc.symm.trans hc'
      injection h2 with h3
      rw [h3]
    · -- main write: campaign re-inserted as Withdrawn
      dsimp only at hc'
      by_cases hx : cid = campaign_id
      · subst hx
        rw [mapInsert_self] at hc'
        injection hc' with h3
        subst h3
        have hce : campaign = c := by
          have h2 := hc.symm.trans hcamp
          injection h2 with h4
          exact h4.symm
        subst hce
        rcases hs4 : campaign.state with h5 | h5 | h5 | h5
        · right
          rfl
        · right
          rfl
        · right
          rfl
        · exact absurd hs4 hnw
      · rw [mapInsert_ne _ _ _ _ hx] at hc'
        left
        have h2 := hc.symm.trans hc'
        injection h2 with h3
        rw [h3]

/-- Transitions made by `withdraw_funds`. -/
theorem withdraw_funds_transitions (env : Env) (s : Platform) (campaign_id : ℕ)
    (hInv : Inv s) (cid : ℕ) (c c' : Campaign) (hc : s.campaigns cid = some c)
    (hc' : (withdraw_funds env s campaign_id).state.campaigns cid = some c') :
    c'.state = c.state ∨ state_transition_ok c.state c'.state = true := by
  unfold withdraw_funds at hc'
  dsimp only at hc'
  split at hc'
  all_goals try dsimp only at hc'
  · left
    have h2 := hc.symm.trans hc'
    injection h2 with h3
    rw [h3]
  · exact process_withdrawal_transitions env { s with locked := true } campaign_id
      hInv cid c c' hc hc'

/-- Existing campaigns are never deleted by `process_withdrawal`. -/
theorem process_withdrawal_keeps (env : Env) (s : Platform) (campaign_id cid : ℕ)
    (c : Campaign) (hc : s.campaigns cid = some c) :
    ∃ c2, (process_withdrawal env s campaign_id).state.campaigns cid = some c2 := by
  unfold process_withdrawal
  dsimp only
  repeat' split
  all_goals first
    | exact ⟨c, hc⟩
    | (dsimp only
       by_cases hx : cid = campaign_id
       · subst hx
         exact ⟨_, mapInsert_self _ _ _⟩
       · rw [mapInsert_ne _ _ _ _ hx]
         exact ⟨c, hc⟩)

/-- Transitions made by the batch-withdrawal loop. -/
theorem withdraw_batch_loop_transitions (env : Env) (ids : List ℕ) :
    ∀ (s : Platform) (acc : BatchResult) (trs : List (ℕ × ℕ)), Inv s →
    ∀ (cid : ℕ) (c c' : Campaign), s.campaigns cid = some c →
      (withdraw_batch_loop env ids s acc trs).state.campaigns cid = some c' →
      c'.state = c.state ∨ state_transition_ok c.state c'.state = true := by
  induction ids with
  | nil =>
    intro s acc trs hInv cid c c' hc hc'
    left
    have h2 := hc.symm.trans hc'
    injection h2 with h3
    rw [h3]
  | cons hd tl ih =>
    intro s acc trs hInv cid c c' hc hc'
    unfold withdraw_batch_loop at hc'
    dsimp only at hc'
    have hInv2 := process_withdrawal_inv env s hd hInv
    -- the intermediate state after the head withdrawal
    have hmid : ∃ cmid, (process_withdrawal env s hd).state.campaigns cid = some cmid ∧
        (cmid.state = c.state ∨ state_transition_ok c.state cmid.state = true) := by
      rcases hmid0 : (process_withdrawal env s hd).state.campaigns cid with _ | cmid
      · exfalso
        obtain ⟨c2, h2⟩ := process_withdrawal_keeps env s hd cid c hc
        rw [h2] at hmid0
        exact Option.noConfusion hmid0
      · exact ⟨cmid, rfl,
          process_withdrawal_transitions env s hd hInv cid c cmid hc hmid0⟩
    obtain ⟨cmid, hmid1, hmid2⟩ := hmid
    split at hc'
    · exact transition_trans _ _ _ hmid2 (ih _ _ _ hInv2 cid cmid c' hmid1 hc')
    · exact transition_trans _ _ _ hmid2 (ih _ _ _ hInv2 cid cmid c' hmid1 hc')

/-- Transitions made by `withdraw_funds_batch`. -/
theorem withdraw_funds_batch_transitions (env : Env) (s : Platform) (ids : List ℕ)
    (hInv : Inv s) (cid : ℕ) (c c' : Campaign) (hc : s.campaigns cid = some c)
    (hc' : (withdraw_funds_batch env s ids).state.campaigns cid = some c') :
    c'.state = c.state ∨ state_transition_ok c.state c'.state = true := by
  unfold withdraw_funds_batch at hc'
  dsimp only at hc'
  split at hc'
  · left
    have h2 := hc.symm.trans hc'
    injection h2 with h3
    rw [h3]
  split at hc'
  · left
    have h2 := hc.symm.trans hc'
    injection h2 with h3
    rw [h3]
  · exact withdraw_batch_loop_transitions env ids { s with locked := true } ⟨0, 0, []⟩ []
      hInv cid c c' hc hc'

/-- Transitions made by `cancel_campaign`. -/
theorem cancel_campaign_transitions (env : Env) (s : Platform) (campaign_id : ℕ)
    (cid : ℕ) (c c' : Campaign) (hc : s.campaigns cid = some c)
    (hc' : (cancel_campaign env s campaign_id).state.campaigns cid = some c') :
    c'.state = c.state ∨ state_transition_ok c.state c'.state = true := by
  unfold cancel_campaign at hc'
  split at hc'
  · left
    have h2 := hc.symm.trans hc'
    injection h2 with h3
    rw [h3]
  next campaign hcamp =>
  split at hc'
  · left
    have h2 := hc.symm.trans hc'
    injection h2 with h3
    rw [h3]
  split at hc'
  · left
    have h2 := hc.symm.trans hc'
    injection h2 with h3
    rw [h3]
  next hactive =>
  have hact : campaign.state = .Active := by
    revert hactive
    by_cases h4 : campaign.state = CampaignState.Active <;> simp [h4]
  dsimp only at hc'
  by_cases hx : cid = campaign_id
  · subst hx
    rw [mapInsert_self] at hc'
    injection hc' with h3
    subst h3
    have hce : campaign = c := by
      have h2 := hc.symm.trans hcamp
      injection h2 with h4
      exact h4.symm
    subst hce
    right
    dsimp only
    rw [hact]
    rfl
  · rw [mapInsert_ne _ _ _ _ hx] at hc'
    left
    have h2 := hc.symm.trans hc'
    injection h2 with h3
    rw [h3]

/-- `create_campaign` keeps every existing campaign record intact. -/
theorem create_campaign_preserves (env : Env) (s : Platform) (t d : String)
    (g dl b : ℕ) (hInv : Inv s) (cid : ℕ) (c : Campaign)
    (hc : s.campaigns cid = some c) :
    (create_campaign env s t d g dl b).state.campaigns cid = some c := by
  unfold create_campaign
  dsimp only
  repeat' split
  all_goals first
    | exact hc
    | (dsimp only
       by_cases hx : cid = s.campaign_count
       · exfalso
         have h0 := hInv.1 s.campaign_count le_rfl
         rw [hx, h0] at hc
         exact Option.noConfusion hc
       · rw [mapInsert_ne _ _ _ _ hx]
         exact hc)

/-- The batch-creation loop keeps every existing campaign record intact. -/
theorem create_batch_loop_preserves (env : Env) (data : List (String × String × ℕ × ℕ × ℕ)) :
    ∀ (s : Platform) (acc : BatchResult), Inv s →
    ∀ (cid : ℕ) (c : Campaign), s.campaigns cid = some c →
      (create_batch_loop env data s acc).state.campaigns cid = some c := by
  induction data with
  | nil => intro s acc hInv cid c hc; exact hc
  | cons hd tl ih =>
    intro s acc hInv cid c hc
    obtain ⟨t, d, g, dl, b⟩ := hd
    unfold create_batch_loop
    dsimp only
    have hkeep := create_campaign_preserves env s t d g dl b hInv cid c hc
    have hInv2 := create_campaign_inv env s t d g dl b hInv
    split <;> exact ih _ _ hInv2 cid c hkeep

/-- Transitions (none) made by `create_campaigns_batch` on existing
campaigns. -/
theorem create_campaigns_batch_transitions (env : Env) (s : Platform)
    (data : List (String × String × ℕ × ℕ × ℕ)) (hInv : Inv s)
    (cid : ℕ) (c c' : Campaign) (hc : s.campaigns cid = some c)
    (hc' : (create_campaigns_batch env s data).state.campaigns cid = some c') :
    c'.state = c.state := by
  unfold create_campaigns_batch at hc'
  split at hc'
  · have h2 := hc.symm.trans hc'
    injection h2 with h3
    rw [h3]
  · have hkeep := create_batch_loop_preserves env data s ⟨0, 0, []⟩ hInv cid c hc
    have h2 := hkeep.symm.trans hc'
    injection h2 with h3
    rw [h3]

/-- The distribution write loop keeps every campaign present with its state
unchanged. -/
theorem distribute_write_state (pool total : ℕ) (l : List (ℕ × ℕ)) :
    ∀ (s : Platform) (cid : ℕ) (c : Campaign), s.campaigns cid = some c →
      ∃ c2, (distribute_write pool total l s).campaigns cid = some c2 ∧
        c2.state = c.state := by
  induction l with
  | nil => intro s cid c hc; exact ⟨c, hc, rfl⟩
  | cons hd tl ih =>
    intro s cid c hc
    obtain ⟨cid2, q⟩ := hd
    unfold distribute_write
    dsimp only
    split
    · next c3 hc3 =>
      by_cases hx : cid = cid2
      · subst hx
        have hce : c3 = c := by
          have h2 := hc.symm.trans hc3
          injection h2 with h4
          exact h4.symm
        subst hce
        obtain ⟨c2, h5, h6⟩ := ih { s with campaigns := mapInsert s.campaigns cid (some { c3 with matching_amount := wrap128 (q * pool) / total }) } cid { c3 with matching_amount := wrap128 (q * pool) / total } (mapInsert_self _ _ _)
        exact ⟨c2, h5, h6⟩
      · obtain ⟨c2, h5, h6⟩ := ih { s with campaigns := mapInsert s.campaigns cid2 (some { c3 with matching_amount := wrap128 (q * pool) / total }) } cid c (by dsimp only; rw [mapInsert_ne _ _ _ _ hx]; exact hc)
        exact ⟨c2, h5, h6⟩
    · exact ih s cid c hc

/-- Transitions (none) made by `calculate_and_distribute_matching`. -/
theorem calculate_and_distribute_matching_transitions (env : Env) (s : Platform)
    (rid : ℕ) (cid : ℕ) (c c' : Campaign) (hc : s.campaigns cid = some c)
    (hc' : (calculate_and_distribute_matching env s rid).state.campaigns cid = some c') :
    c'.state = c.state := by
  unfold calculate_and_distribute_matching at hc'
  dsimp only at hc'
  split at hc'
  · have h2 := hc.symm.trans hc'
    injection h2 with h3
    rw [h3]
  split at hc'
  · have h2 := hc.symm.trans hc'
    injection h2 with h3
    rw [h3]
  split at hc'
  · have h2 := hc.symm.trans hc'
    injection h2 with h3
    rw [h3]
  split at hc'
  · have h2 := hc.symm.trans hc'
    injection h2 with h3
    rw [h3]
  · rw [apply_ite (fun st : Platform => st.campaigns cid)] at hc'
    dsimp only at hc'
    rw [ite_self] at hc'
    split at hc'
    · obtain ⟨c2, h5, h6⟩ := distribute_write_state _ _ _ s cid c hc
      have h2 := h5.symm.trans hc'
      injection h2 with h3
      rw [← h3]
      exact h6
    · have h2 := hc.symm.trans hc'
      injection h2 with h3
      rw [h3]

/-- Transitions (none) made by `add_milestones`. -/
theorem add_milestones_transitions (env : Env) (s : Platform) (campaign_id : ℕ)
    (data : List (String × ℕ × ℕ)) (cid : ℕ) (c c' : Campaign)
    (hc : s.campaigns cid = some c)
    (hc' : (add_milestones env s campaign_id data).state.campaigns cid = some c') :
    c'.state = c.state := by
  unfold add_milestones at hc'
  dsimp only at hc'
  split at hc'
  · have h2 := hc.symm.trans hc'
    injection h2 with h3
    rw [h3]
  next campaign hcamp =>
  repeat' split at hc'
  all_goals try dsimp only at hc'
  all_goals try
    (have h2 := hc.symm.trans hc'
     injection h2 with h3
     rw [h3])
  all_goals by_cases hx : cid = campaign_id
  all_goals try
    (rw [mapInsert_ne _ _ _ _ hx] at hc'
     have h2 := hc.symm.trans hc'
     injection h2 with h3
     rw [h3])
  all_goals subst hx
  all_goals rw [mapInsert_self] at hc'
  all_goals injection hc' with h3
  all_goals subst h3
  all_goals dsimp only
  all_goals
    (have h2 := hc.symm.trans hcamp
     injection h2 with h4
     rw [h4])

/-- Transitions (none) made by `activate_milestone_voting`. -/
theorem activate_milestone_voting_transitions (env : Env) (s : Platform)
    (campaign_id idx : ℕ) (cid : ℕ) (c c' : Campaign)
    (hc : s.campaigns cid = some c)
    (hc' : (activate_milestone_voting env s campaign_id idx).state.campaigns cid
      = some c') :
    c'.state = c.state := by
  unfold activate_milestone_voting at hc'
  dsimp only at hc'
  split at hc'
  · have h2 := hc.symm.trans hc'
    injection h2 with h3
    rw [h3]
  next campaign hcamp =>
  repeat' split at hc'
  all_goals try dsimp only at hc'
  all_goals try
    (have h2 := hc.symm.trans hc'
     injection h2 with h3
     rw [h3])
  all_goals by_cases hx : cid = campaign_id
  all_goals try
    (rw [mapInsert_ne _ _ _ _ hx] at hc'
     have h2 := hc.symm.trans hc'
     injection h2 with h3
     rw [h3])
  all_goals subst hx
  all_goals rw [mapInsert_self] at hc'
  all_goals injection hc' with h3
  all_goals subst h3
  all_goals dsimp only
  all_goals
    (have h2 := hc.symm.trans hcamp
     injection h2 with h4
     rw [h4])

/-- Transitions (none) made by `vote_on_milestone`. -/
theorem vote_on_milestone_transitions (env : Env) (s : Platform)
    (campaign_id idx : ℕ) (a : Bool) (cid : ℕ) (c c' : Campaign)
    (hc : s.campaigns cid = some c)
    (hc' : (vote_on_milestone env s campaign_id idx a).state.campaigns cid = some c') :
    c'.state = c.state := by
  unfold vote_on_milestone at hc'
  dsimp only at hc'
  split at hc'
  · have h2 := hc.symm.trans hc'
    injection h2 with h3
    rw [h3]
  next campaign hcamp =>
  repeat' split at hc'
  all_goals try dsimp only at hc'
  all_goals try
    (have h2 := hc.symm.trans hc'
     injection h2 with h3
     rw [h3])
  all_goals by_cases hx : cid = campaign_id
  all_goals try
    (rw [mapInsert_ne _ _ _ _ hx] at hc'
     have h2 := hc.symm.trans hc'
     injection h2 with h3
     rw [h3])
  all_goals subst hx
  all_goals rw [mapInsert_self] at hc'
  all_goals injection hc' with h3
  all_goals subst h3
  all_goals dsimp only
  all_goals
    (have h2 := hc.symm.trans hcamp
     injection h2 with h4
     rw [h4])

/-- Transitions made by `release_milestone_funds`. -/
theorem release_milestone_funds_transitions (env : Env) (s : Platform)
    (campaign_id idx : ℕ) (cid : ℕ) (c c' : Campaign)
    (hc : s.campaigns cid = some c)
    (hc' : (release_milestone_funds env s campaign_id idx).state.campaigns cid
      = some c') :
    c'.state = c.state ∨ state_transition_ok c.state c'.state = true := by
  unfold release_milestone_funds at hc'
  dsimp only at hc'
  split at hc'
  · left
    have h2 := hc.symm.trans hc'
    injection h2 with h3
    rw [h3]
  next campaign hcamp =>
  repeat' split at hc'
  all_goals try dsimp only at hc'
  all_goals try
    (left
     have h2 := hc.symm.trans hc'
     injection h2 with h3
     rw [h3])
  all_goals by_cases hx : cid = campaign_id
  all_goals try
    (rw [mapInsert_ne _ _ _ _ hx] at hc'
     left
     have h2 := hc.symm.trans hc'
     injection h2 with h3
     rw [h3])
  all_goals subst hx
  all_goals rw [mapInsert_self] at hc'
  all_goals injection hc' with h3
  all_goals subst h3
  all_goals
    (have hce : campaign = c := by
       have h2 := hc.symm.trans hcamp
       injection h2 with h4
       exact h4.symm)
  all_goals subst hce
  all_goals dsimp only
  all_goals try (left; rfl)
  all_goals rcases hs4 : campaign.state with h5 | h5 | h5 | h5
  all_goals first
    | (right; rfl)
    | (left; rfl)

/-- The campaign map is unchanged by `fund_matching_pool`. -/
theorem fund_matching_pool_campaigns (env : Env) (s : Platform) :
    (fund_matching_pool env s).state.campaigns = s.campaigns := by
  unfold fund_matching_pool
  dsimp only
  repeat' split
  all_goals rfl

/-- The campaign map is unchanged by `create_matching_round`. -/
theorem create_matching_round_campaigns (env : Env) (s : Platform) (p d : ℕ) :
    (create_matching_round env s p d).state.campaigns = s.campaigns := by
  unfold create_matching_round
  dsimp only
  repeat' split
  all_goals rfl

/-- The campaign map is unchanged by the three admin setters. -/
theorem setters_campaigns (env : Env) (s : Platform) (n a : ℕ) (b : Bool) :
    (set_max_batch_size env s n).state.campaigns = s.campaigns ∧
    (set_nft_contract env s a).state.campaigns = s.campaigns ∧
    (set_nft_enabled env s b).state.campaigns = s.campaigns := by
  unfold set_max_batch_size set_nft_contract set_nft_enabled
  refine ⟨?_, ?_, ?_⟩ <;> (dsimp only; split) <;> rfl

/-- Transitions made by any single entry-point call from a state
satisfying the invariant. -/
theorem step_transitions (op : Op) (env : Env) (s : Platform) (hInv : Inv s)
    (cid : ℕ) (c c' : Campaign) (hc : s.campaigns cid = some c)
    (hc' : (step_state op env s).campaigns cid = some c') :
    c'.state = c.state ∨ state_transition_ok c.state c'.state = true := by
  cases op with
  | createCampaign t d g dl b =>
    left
    have hk := create_campaign_preserves env s t d g dl b hInv cid c hc
    have h2 := hk.symm.trans hc'
    injection h2 with h3
    rw [h3]
  | createCampaignsBatch data =>
    exact Or.inl (create_campaigns_batch_transitions env s data hInv cid c c' hc hc')
  | donate cid2 => exact donate_transitions env s cid2 cid c c' hc hc'
  | withdrawFunds cid2 => exact withdraw_funds_transitions env s cid2 hInv cid c c' hc hc'
  | withdrawFundsBatch ids =>
    exact withdraw_funds_batch_transitions env s ids hInv cid c c' hc hc'
  | cancelCampaign cid2 => exact cancel_campaign_transitions env s cid2 cid c c' hc hc'
  | claimRefund cid2 =>
    left
    have hk := claim_refund_keeps_campaigns env s cid2
    rw [show (step_state (Op.claimRefund cid2) env s).campaigns
        = (claim_refund env s cid2).state.campaigns from rfl, hk] at hc'
    have h2 := hc.symm.trans hc'
    injection h2 with h3
    rw [h3]
  | fundMatchingPool =>
    left
    have hk := fund_matching_pool_campaigns env s
    rw [show (step_state Op.fundMatchingPool env s).campaigns
        = (fund_matching_pool env s).state.campaigns from rfl, hk] at hc'
    have h2 := hc.symm.trans hc'
    injection h2 with h3
    rw [h3]
  | createMatchingRound p d =>
    left
    have hk := create_matching_round_campaigns env s p d
    rw [show (step_state (Op.createMatchingRound p d) env s).campaigns
        = (create_matching_round env s p d).state.campaigns from rfl, hk] at hc'
    have h2 := hc.symm.trans hc'
    injection h2 with h3
    rw [h3]
  | calculateAndDistributeMatching rid =>
    exact Or.inl
      (calculate_and_distribute_matching_transitions env s rid cid c c' hc hc')
  | addMilestones cid2 data =>
    exact Or.inl (add_milestones_transitions env s cid2 data cid c c' hc hc')
  | activateMilestoneVoting cid2 idx =>
    exact Or.inl (activate_milestone_voting_transitions env s cid2 idx cid c c' hc hc')
  | voteOnMilestone cid2 idx a =>
    exact Or.inl (vote_on_milestone_transitions env s cid2 idx a cid c c' hc hc')
  | releaseMilestoneFunds cid2 idx =>
    exact release_milestone_funds_transitions env s cid2 idx cid c c' hc hc'
  | setMaxBatchSize n =>
    left
    have hk := (setters_campaigns env s n 0 false).1
    rw [show (step_state (Op.setMaxBatchSize n) env s).campaigns
        = (set_max_batch_size env s n).state.campaigns from rfl, hk] at hc'
    have h2 := hc.symm.trans hc'
    injection h2 with h3
    rw [h3]
  | setNftContract a =>
    left
    have hk := (setters_campaigns env s 0 a false).2.1
    rw [show (step_state (Op.setNftContract a) env s).campaigns
        = (set_nft_contract env s a).state.campaigns from rfl, hk] at hc'
    have h2 := hc.symm.trans hc'
    injection h2 with h3
    rw [h3]
  | setNftEnabled b =>
    left
    have hk := (setters_campaigns env s 0 0 b).2.2
    rw [show (step_state (Op.setNftEnabled b) env s).campaigns
        = (set_nft_enabled env s b).state.campaigns from rfl, hk] at hc'
    have h2 := hc.symm.trans hc'
    injection h2 with h3
    rw [h3]

/-- C3 (amended): from any reachable state, every change an operation makes
to a campaign's `state` field is one of Active→Successful, Active→Failed,
Active→Withdrawn (a funded campaign whose deadline passed, withdrawn while
still marked Active), Successful→Withdrawn, or Failed→Withdrawn; states
never reverse — a Withdrawn campaign never changes state again, and no
campaign returns from Successful or Failed to Active. -/
theorem c3_state_transitions (s : Platform) (hs : Reachable s) (op : Op) (env : Env)
    (campaign_id : ℕ) (c c' : Campaign)
    (hc : s.campaigns campaign_id = some c)
    (hc' : (step_state op env s).campaigns campaign_id = some c')
    (hne : c.state ≠ c'.state) :
    state_transition_ok c.state c'.state = true := by
  rcases step_transitions op env s (reachable_inv s hs) campaign_id c c' hc hc' with h | h
  · exact absurd h.symm hne
  · exact h

/-- Campaign record created by the concrete trace (create with goal
10000000, deadline 4000000, beneficiary 3, owner 1). -/
def created_campaign : Campaign :=
  { id := 0, owner := 1, title := "t", description := "d", goal := 10000000
    raised := 0, deadline := 4000000, state := .Active, beneficiary := 3
    donation_count := 0, matching_round := none, matching_amount := 0
    milestones := [], uses_milestones := false }

/-- C3 witness: on the reachable one-campaign state, cancelling makes the
allowed Active→Failed transition. -/
theorem c3_witness : state_transition_ok .Active .Failed = true :=
  c3_state_transitions c2_cex_state (Reachable.step _ _ (Reachable.init 0))
    (.cancelCampaign 0) env_cancel 0 created_campaign
    { created_campaign with state := .Failed }
    (by decide) (by decide) (by decide)

/-- Reachable state with one Active campaign holding a 1000000 donation,
its deadline (4000000) eventually passing. -/
def c3_cex_state : Platform :=
  step_state (.donate 0) env_donor
    (step_state (.createCampaign "t" "d" 10000000 4000000 3) env_create (new 0))

/-- C3 counterexample: withdrawing a funded campaign after its deadline,
while it is still marked Active, moves it directly Active→Withdrawn — a
transition outside the claim's list. -/
theorem c3_counterexample :
    Reachable c3_cex_state ∧
    (c3_cex_state.campaigns 0).map Campaign.state = some .Active ∧
    step_err (.withdrawFunds 0) env_withdraw c3_cex_state = none ∧
    ((step_state (.withdrawFunds 0) env_withdraw c3_cex_state).campaigns 0).map
        Campaign.state = some .Withdrawn ∧
    claimed_transition_ok .Active .Withdrawn = false :=
  ⟨Reachable.step _ _ (Reachable.step _ _ (Reachable.init 0)),
   by decide, by decide, by decide, by decide⟩

/-- C4: in every state reachable from a fresh engine, every existing
campaign's ledger sums (gross, fee-unreduced) to exactly its `raised`
field. -/
theorem c4_ledger_sum (s : Platform) (hs : Reachable s) (campaign_id : ℕ)
    (c : Campaign) (hc : s.campaigns campaign_id = some c) :
    donation_sum (s.campaign_donations campaign_id) = c.raised :=
  ((reachable_inv s hs).2 campaign_id c hc).1

/-- Campaign record after the concrete 1000000 donation. -/
def donated_campaign : Campaign :=
  { created_campaign with raised := 1000000, donation_count := 1 }

/-- C4 witness: the ledger-sum equation evaluated on the concrete reachable
state after one donation. -/
theorem c4_witness :
    donation_sum (c3_cex_state.campaign_donations 0) = donated_campaign.raised :=
  c4_ledger_sum c3_cex_state (Reachable.step _ _ (Reachable.step _ _ (Reachable.init 0)))
    0 donated_campaign (by decide)

/-- Quadratic-funding scores are below the `u128` bound. -/
theorem calculate_qf_score_le (s : Platform) (campaign_id : ℕ) :
    calculate_qf_score s campaign_id ≤ U128 - 1 := by
  unfold calculate_qf_score saturating_mul128
  exact Nat.min_le_right _ _

/-- Specification of one entry of the distribution's score list. -/
def score_entry (s : Platform) (round_id campaign_id : ℕ) : Option (ℕ × ℕ) :=
  match s.campaigns campaign_id with
  | some campaign =>
    if campaign.matching_round = some round_id ∧ campaign.state ≠ .Failed then
      if calculate_qf_score s campaign_id > 0 then
        some (campaign_id, calculate_qf_score s campaign_id)
      else none
    else none
  | none => none

/-- Shape of a produced score entry: the key is the scanned id and the
value its positive score. -/
theorem score_entry_shape (s : Platform) (round_id campaign_id : ℕ) (p : ℕ × ℕ)
    (h : score_entry s round_id campaign_id = some p) :
    p = (campaign_id, calculate_qf_score s campaign_id) ∧
    0 < calculate_qf_score s campaign_id := by
  unfold score_entry at h
  repeat' split at h
  all_goals first
    | exact Option.noConfusion h
    | (injection h with h2
       exact ⟨h2.symm, by omega⟩)

/-- The score list built by the distribution loop is the `filterMap` of
`score_entry` over the scanned ids. -/
theorem distribute_scores_fst_spec (s : Platform) (round_id : ℕ) :
    ∀ (l : List ℕ) (ps : List (ℕ × ℕ)) (t : ℕ),
      (l.foldl
        (fun acc campaign_id =>
          match s.campaigns campaign_id with
          | some campaign =>
            if campaign.matching_round = some round_id ∧ campaign.state ≠ .Failed then
              let qf_score := calculate_qf_score s campaign_id
              if qf_score > 0 then
                (acc.1 ++ [(campaign_id, qf_score)], saturating_add128 acc.2 qf_score)
              else acc
            else acc
          | none => acc)
        (ps, t)).1 = ps ++ l.filterMap (score_entry s round_id) := by
  intro l
  induction l with
  | nil => intro ps t; simp
  | cons x xs ih =>
    intro ps t
    rw [List.foldl_cons, List.filterMap_cons]
    rcases hx : s.campaigns x with _ | campaign
    · have hse : score_entry s round_id x = none := by
        unfold score_entry
        rw [hx]
      rw [hse]
      simp only [hx]
      exact ih ps t
    · by_cases hcond : campaign.matching_round = some round_id ∧
        campaign.state ≠ CampaignState.Failed
      · by_cases hq : calculate_qf_score s x > 0
        · have hse : score_entry s round_id x = some (x, calculate_qf_score s x) := by
            unfold score_entry
            rw [hx]
            dsimp only
            rw [if_pos hcond, if_pos hq]
          rw [hse]
          simp only [hx]
          rw [if_pos hcond]
          rw [if_pos hq]
          rw [ih]
          simp
        · have hse : score_entry s round_id x = none := by
            unfold score_entry
            rw [hx]
            dsimp only
            rw [if_pos hcond, if_neg hq]
          rw [hse]
          simp only [hx]
          rw [if_pos hcond]
          rw [if_neg hq]
          exact ih ps t
      · have hse : score_entry s round_id x = none := by
          unfold score_entry
          rw [hx]
          dsimp only
          rw [if_neg hcond]
        rw [hse]
        simp only [hx]
        rw [if_neg hcond]
        exact ih ps t

/-- With every Failed in-round campaign scoring zero, the distribution
total equals the estimate's total, both bounded and monotone in the seed. -/
theorem distribute_totals_spec (s : Platform) (round_id : ℕ)
    (hF : ∀ cid2 c2, s.campaigns cid2 = some c2 → c2.matching_round = some round_id →
      c2.state = .Failed → calculate_qf_score s cid2 = 0) :
    ∀ (l : List ℕ) (t : ℕ), t ≤ U128 - 1 → ∀ (ps : List (ℕ × ℕ)),
      ((l.foldl
        (fun acc campaign_id =>
          match s.campaigns campaign_id with
          | some campaign =>
            if campaign.matching_round = some round_id ∧ campaign.state ≠ .Failed then
              let qf_score := calculate_qf_score s campaign_id
              if qf_score > 0 then
                (acc.1 ++ [(campaign_id, qf_score)], saturating_add128 acc.2 qf_score)
              else acc
            else acc
          | none => acc)
        (ps, t)).2
       = l.foldl
        (fun total id =>
          match s.campaigns id with
          | some c =>
            if c.matching_round = some round_id then
              saturating_add128 total (calculate_qf_score s id)
            else total
          | none => total)
        t) ∧
      (l.foldl
        (fun total id =>
          match s.campaigns id with
          | some c =>
            if c.matching_round = some round_id then
              saturating_add128 total (calculate_qf_score s id)
            else total
          | none => total)
        t ≤ U128 - 1) ∧
      (t ≤ l.foldl
        (fun total id =>
          match s.campaigns id with
          | some c =>
            if c.matching_round = some round_id then
              saturating_add128 total (calculate_qf_score s id)
            else total
          | none => total)
        t) := by
  intro l
  induction l with
  | nil => intro t ht ps; exact ⟨rfl, ht, le_rfl⟩
  | cons x xs ih =>
    intro t ht ps
    rw [List.foldl_cons, List.foldl_cons]
    rcases hx : s.campaigns x with _ | campaign
    · dsimp only
      exact ih t ht ps
    · dsimp only
      by_cases hr : campaign.matching_round = some round_id
      · by_cases hf : campaign.state = .Failed
        · rw [if_neg (by simp [hr, hf]), if_pos hr]
          have hq0 : calculate_qf_score s x = 0 := hF x campaign hx hr hf
          have hsat : saturating_add128 t (calculate_qf_score s x) = t := by
            rw [hq0]
            unfold saturating_add128
            omega
          rw [hsat]
          exact ih t ht ps
        · rw [if_pos (by exact ⟨hr, hf⟩), if_pos hr]
          by_cases hq : calculate_qf_score s x > 0
          · rw [if_pos hq]
            have ht2 : saturating_add128 t (calculate_qf_score s x) ≤ U128 - 1 := by
              unfold saturating_add128
              exact Nat.min_le_right _ _
            obtain ⟨h1, h2, h3⟩ := ih (saturating_add128 t (calculate_qf_score s x)) ht2
              (ps ++ [(x, calculate_qf_score s x)])
            refine ⟨h1, h2, ?_⟩
            have : t ≤ saturating_add128 t (calculate_qf_score s x) := by
              unfold saturating_add128
              omega
            omega
          · rw [if_neg hq]
            have hq0 : calculate_qf_score s x = 0 := by omega
            have hsat : saturating_add128 t (calculate_qf_score s x) = t := by
              rw [hq0]
              unfold saturating_add128
              omega
            rw [hsat]
            exact ih t ht ps
      · rw [if_neg (by simp [hr]), if_neg hr]
        exact ih t ht ps

/-- The estimate's total is positive once any scanned in-round campaign has
a positive score. -/
theorem estimate_total_pos (s : Platform) (round_id campaign_id : ℕ) (c : Campaign)
    (hc : s.campaigns campaign_id = some c) (hcr : c.matching_round = some round_id)
    (hq : 0 < calculate_qf_score s campaign_id) :
    ∀ (l : List ℕ) (t : ℕ), t ≤ U128 - 1 → campaign_id ∈ l →
      0 < l.foldl
        (fun total id =>
          match s.campaigns id with
          | some c2 =>
            if c2.matching_round = some round_id then
              saturating_add128 total (calculate_qf_score s id)
            else total
          | none => total)
        t := by
  intro l
  induction l with
  | nil => intro t ht hmem; exact absurd hmem (List.not_mem_nil _)
  | cons x xs ih =>
    intro t ht hmem
    rw [List.foldl_cons]
    by_cases hx : x = campaign_id
    · subst hx
      rw [hc]
      dsimp only
      rw [if_pos hcr]
      have hU : 0 < U128 - 1 := by norm_num [U128]
      have hle := calculate_qf_score_le s x
      have hpos : 0 < saturating_add128 t (calculate_qf_score s x) := by
        unfold saturating_add128
        omega
      have hmono : ∀ (l2 : List ℕ) (t2 : ℕ), t2 ≤ U128 - 1 →
          t2 ≤ l2.foldl
            (fun total id =>
              match s.campaigns id with
              | some c2 =>
                if c2.matching_round = some round_id then
                  saturating_add128 total (calculate_qf_score s id)
                else total
              | none => total)
            t2 := by
        intro l2
        induction l2 with
        | nil => intro t2 ht2; exact le_rfl
        | cons y ys ih2 =>
          intro t2 ht2
          rw [List.foldl_cons]
          rcases hy : s.campaigns y with _ | c3
          · exact ih2 t2 ht2
          · dsimp only
            split
            · refine le_trans ?_ (ih2 _ ?_)
              · unfold saturating_add128
                exact le_min (Nat.le_add_right _ _) ht2
              · unfold saturating_add128
                exact Nat.min_le_right _ _
            · exact ih2 t2 ht2
      refine lt_of_lt_of_le hpos (hmono xs _ ?_)
      unfold saturating_add128
      exact Nat.min_le_right _ _
    · rcases List.mem_cons.mp hmem with h | h
      · exact absurd h.symm hx
      · rcases hy : s.campaigns x with _ | c3
        · exact ih t ht h
        · dsimp only
          split
          · refine ih _ ?_ h
            unfold saturating_add128
            exact Nat.min_le_right _ _
          · exact ih t ht h

/-- The distribution write loop does not touch ids absent from its list. -/
theorem distribute_write_miss (pool total : ℕ) (campaign_id : ℕ) :
    ∀ (pairs : List (ℕ × ℕ)) (s : Platform), (∀ q, (campaign_id, q) ∉ pairs) →
      (distribute_write pool total pairs s).campaigns campaign_id
        = s.campaigns campaign_id := by
  intro pairs
  induction pairs with
  | nil => intro s hnm; rfl
  | cons hd tl ih =>
    intro s hnm
    obtain ⟨cid2, q⟩ := hd
    have hne : cid2 ≠ campaign_id := by
      intro h
      subst h
      exact hnm q (List.mem_cons_self _ _)
    unfold distribute_write
    dsimp only
    have htl : ∀ q2, (campaign_id, q2) ∉ tl := by
      intro q2 hmem
      exact hnm q2 (List.mem_cons_of_mem _ hmem)
    split
    · rw [ih _ htl]
      dsimp only
      rw [mapInsert_ne _ _ _ _ (fun h => hne h.symm)]
    · exact ih s htl

/-- The distribution write loop writes exactly the proportional share for
an id occurring once in its list. -/
theorem distribute_write_hit (pool total : ℕ) (campaign_id q : ℕ) :
    ∀ (pre post : List (ℕ × ℕ)) (s : Platform) (c : Campaign),
      s.campaigns campaign_id = some c →
      (∀ q2, (campaign_id, q2) ∉ pre) → (∀ q2, (campaign_id, q2) ∉ post) →
      (distribute_write pool total (pre ++ (campaign_id, q) :: post) s).campaigns
          campaign_id
        = some { c with matching_amount := wrap128 (q * pool) / total } := by
  intro pre
  induction pre with
  | nil =>
    intro post s c hc hpre hpost
    rw [List.nil_append]
    unfold distribute_write
    dsimp only
    rw [hc]
    dsimp only
    rw [distribute_write_miss pool total campaign_id post _ hpost]
    dsimp only
    rw [mapInsert_self]
  | cons hd tl ih =>
    intro post s c hc hpre hpost
    obtain ⟨cid2, q2⟩ := hd
    have hne : cid2 ≠ campaign_id := by
      intro h
      subst h
      exact hpre q2 (List.mem_cons_self _ _)
    have htl : ∀ q3, (campaign_id, q3) ∉ tl := by
      intro q3 hmem
      exact hpre q3 (List.mem_cons_of_mem _ hmem)
    rw [List.cons_append]
    unfold distribute_write
    dsimp only
    split
    · refine ih post _ c ?_ htl hpost
      dsimp only
      rw [mapInsert_ne _ _ _ _ (fun h => hne h.symm)]
      exact hc
    · exact ih post s c hc htl hpost

/-- Writing a campaign's stored matching amount back to itself is the
identity. -/
theorem campaign_ma_eta (c : Campaign) (v : ℕ) (h : c.matching_amount = v) :
    { c with matching_amount := v } = c := by
  cases c
  subst h
  rfl

/-- Any pair in the distribution score list is the unique entry produced
for its own key. -/
theorem scores_mem_unique (s : Platform) (round_id n campaign_id q : ℕ)
    (h : (campaign_id, q) ∈ (List.range n).filterMap (score_entry s round_id)) :
    score_entry s round_id campaign_id = some (campaign_id, q) := by
  rcases List.mem_filterMap.mp h with ⟨y, _, hse⟩
  rcases score_entry_shape s round_id y _ hse with ⟨hp, _⟩
  rw [Prod.mk.injEq] at hp
  obtain ⟨h1, h2⟩ := hp
  subst h1
  rw [hse, h2]

/-- The distribution write loop assigns the proportional share to an id
whose listed entries all carry the same score. -/
theorem distribute_write_unique (pool total campaign_id q : ℕ) :
    ∀ (pairs : List (ℕ × ℕ)) (s : Platform) (c : Campaign),
      s.campaigns campaign_id = some c →
      (campaign_id, q) ∈ pairs →
      (∀ q2, (campaign_id, q2) ∈ pairs → q2 = q) →
      (distribute_write pool total pairs s).campaigns campaign_id
        = some { c with matching_amount := wrap128 (q * pool) / total } := by
  intro pairs
  induction pairs with
  | nil => intro s c hc hmem huniq; exact absurd hmem (List.not_mem_nil _)
  | cons hd tl ih =>
    intro s c hc hmem huniq
    obtain ⟨cid2, q2⟩ := hd
    by_cases hcid : cid2 = campaign_id
    · have hq2 : q2 = q := huniq q2 (by rw [hcid]; exact List.mem_cons_self _ _)
      unfold distribute_write
      dsimp only
      rw [hcid, hq2, hc]
      dsimp only
      by_cases htl : ∀ q3, (campaign_id, q3) ∉ tl
      · rw [distribute_write_miss pool total campaign_id tl _ htl]
        dsimp only
        rw [mapInsert_self]
      · push_neg at htl
        obtain ⟨q3, hq3⟩ := htl
        have hq3q : q3 = q := huniq q3 (by rw [hcid]; exact List.mem_cons_of_mem _ hq3)
        rw [hq3q] at hq3
        have step := ih { s with campaigns := mapInsert s.campaigns campaign_id (some { c with matching_amount := wrap128 (q * pool) / total }) } { c with matching_amount := wrap128 (q * pool) / total } (by dsimp only; rw [mapInsert_self]) hq3 (fun q4 h4 => huniq q4 (by rw [hcid]; exact List.mem_cons_of_mem _ h4))
        refine Eq.trans step ?_
        rfl
    · have hmem2 : (campaign_id, q) ∈ tl := by
        rcases List.mem_cons.mp hmem with h | h
        · exact absurd (congrArg Prod.fst h).symm hcid
        · exact h
      unfold distribute_write
      dsimp only
      split
      · refine ih _ c ?_ hmem2 (fun q4 h4 => huniq q4 (List.mem_cons_of_mem _ h4))
        dsimp only
        rw [mapInsert_ne _ _ _ _ (fun h => hcid h.symm)]
        exact hc
      · exact ih s c hc hmem2 (fun q4 h4 => huniq q4 (List.mem_cons_of_mem _ h4))

/-- C8 (amended): on an undistributed round, for an existing non-Failed
campaign of the round with no previously stored matching amount, when the
admin runs the distribution after the round end and every Failed campaign
of the round has a zero score, the distribution succeeds and assigns the
campaign exactly the amount the read-only estimate returns on the same
state. -/
theorem c8_estimate_matches_distribution (env : Env) (s : Platform)
    (round_id campaign_id : ℕ) (c : Campaign) (round : MatchingRound)
    (hadmin : env.caller = s.admin)
    (hc : s.campaigns campaign_id = some c)
    (hcr : c.matching_round = some round_id)
    (hnf : c.state ≠ CampaignState.Failed)
    (hm0 : c.matching_amount = 0)
    (hround : s.matching_rounds round_id = some round)
    (hnd : round.distributed = false)
    (htime : round.end_time ≤ env.block_timestamp)
    (hcount : campaign_id < s.campaign_count)
    (hF : ∀ cid2 c2, s.campaigns cid2 = some c2 → c2.matching_round = some round_id →
      c2.state = CampaignState.Failed → calculate_qf_score s cid2 = 0) :
    (calculate_and_distribute_matching env s round_id).result = Except.ok () ∧
    (calculate_and_distribute_matching env s round_id).state.campaigns campaign_id
      = some { c with matching_amount := get_estimated_matching s campaign_id } := by
  have hU : (0 : ℕ) ≤ U128 - 1 := Nat.zero_le _
  have hfst : (distribute_scores s round_id).1
      = (List.range s.campaign_count).filterMap (score_entry s round_id) := by
    unfold distribute_scores
    rw [distribute_scores_fst_spec]
    rw [List.nil_append]
  have hsnd2 : (distribute_scores s round_id).2
      = (List.range s.campaign_count).foldl
          (fun total id =>
            match s.campaigns id with
            | some c =>
              if c.matching_round = some round_id then
                saturating_add128 total (calculate_qf_score s id)
              else total
            | none => total)
          0 := by
    unfold distribute_scores
    exact (distribute_totals_spec s round_id hF (List.range s.campaign_count) 0 hU []).1
  unfold calculate_and_distribute_matching
  rw [if_neg (fun h => h hadmin), hround]
  dsimp only
  rw [if_neg (by rw [hnd]; exact Bool.false_ne_true), if_neg (by omega)]
  dsimp only
  constructor
  · rfl
  · rw [apply_ite (fun st : Platform => st.campaigns campaign_id)]
    dsimp only
    rw [ite_self]
    by_cases hq : calculate_qf_score s campaign_id = 0
    · have hest : get_estimated_matching s campaign_id = 0 := by
        unfold get_estimated_matching
        rw [hc]
        dsimp only
        rw [hcr]
        dsimp only
        rw [hround]
        dsimp only
        rw [if_neg (by rw [hnd]; exact Bool.false_ne_true)]
        rw [if_pos hq]
      rw [hest, campaign_ma_eta c 0 hm0]
      have hnotin : ∀ q2, (campaign_id, q2) ∉ (distribute_scores s round_id).1 := by
        intro q2 hmem
        rw [hfst] at hmem
        rcases score_entry_shape s round_id campaign_id _
          (scores_mem_unique s round_id _ campaign_id q2 hmem) with ⟨_, hpos⟩
        omega
      split
      · exact Eq.trans (distribute_write_miss _ _ campaign_id _ s hnotin) hc
      · exact hc
    · have hqpos : 0 < calculate_qf_score s campaign_id := Nat.pos_of_ne_zero hq
      have hTpos := estimate_total_pos s round_id campaign_id c hc hcr hqpos
        (List.range s.campaign_count) 0 hU (List.mem_range.mpr hcount)
      have hT2 : 0 < (distribute_scores s round_id).2 := by
        rw [hsnd2]
        exact hTpos
      rw [if_pos hT2]
      have hse : score_entry s round_id campaign_id
          = some (campaign_id, calculate_qf_score s campaign_id) := by
        unfold score_entry
        rw [hc]
        dsimp only
        rw [if_pos ⟨hcr, hnf⟩, if_pos hqpos]
      have hmem : (campaign_id, calculate_qf_score s campaign_id)
          ∈ (distribute_scores s round_id).1 := by
        rw [hfst]
        exact List.mem_filterMap.mpr ⟨campaign_id, List.mem_range.mpr hcount, hse⟩
      have huniq : ∀ q2, (campaign_id, q2) ∈ (distribute_scores s round_id).1 →
          q2 = calculate_qf_score s campaign_id := by
        intro q2 h2
        rw [hfst] at h2
        have h3 := scores_mem_unique s round_id _ campaign_id q2 h2
        rw [hse] at h3
        injection h3 with h4
        exact (congrArg Prod.snd h4).symm
      rw [distribute_write_unique round.pool_amount (distribute_scores s round_id).2
        campaign_id (calculate_qf_score s campaign_id) (distribute_scores s round_id).1
        s c hc hmem huniq]
      have hest : get_estimated_matching s campaign_id
          = wrap128 (calculate_qf_score s campaign_id * round.pool_amount)
              / (distribute_scores s round_id).2 := by
        unfold get_estimated_matching
        rw [hc]
        dsimp only
        rw [hcr]
        dsimp only
        rw [hround]
        dsimp only
        rw [if_neg (by rw [hnd]; exact Bool.false_ne_true)]
        rw [if_neg hq]
        rw [← hsnd2]
        rw [if_neg (by omega)]
      rw [hest]

/-- Campaign used by the matching-distribution witness: Active in round 0
with one recorded donation of 100 and no stored matching amount. -/
def c8_example_campaign : Campaign :=
  { id := 0, owner := 1, title := "t", description := "d", goal := 10
    raised := 100, deadline := 4000000, state := .Active, beneficiary := 1
    donation_count := 1, matching_round := some 0, matching_amount := 0
    milestones := [], uses_milestones := false }

/-- Matching round of the distribution witness: pool 50, ended, not yet
distributed. -/
def c8_example_round : MatchingRound :=
  { id := 0, pool_amount := 50, end_time := 10, distributed := false
    campaign_ids := [0] }

/-- State holding `c8_example_campaign` in the open round 0 with one
donation of 100 recorded. -/
def c8_example_state : Platform :=
  { new 9 with
      campaigns := mapInsert (fun _ => none) 0 (some c8_example_campaign)
      campaign_donations := mapInsert (fun _ => []) 0 [{ donor := 7, amount := 100, timestamp := 1 }]
      campaign_count := 1
      matching_rounds := mapInsert (fun _ => none) 0 (some c8_example_round) }

/-- Environment of the distribution calls: the admin, at the round end. -/
def env_dist : Env := ⟨9, 10, 0, fun _ _ => true⟩

/-- C8 witness: on the concrete one-campaign round the distribution call
succeeds and writes exactly the amount the estimate accessor returns. -/
theorem c8_witness :
    (calculate_and_distribute_matching env_dist c8_example_state 0).result = Except.ok () ∧
    (calculate_and_distribute_matching env_dist c8_example_state 0).state.campaigns 0
      = some { c8_example_campaign with matching_amount := get_estimated_matching c8_example_state 0 } := by
  refine c8_estimate_matches_distribution env_dist c8_example_state 0 0
    c8_example_campaign c8_example_round rfl rfl rfl (by decide) rfl rfl rfl
    (by decide) (by decide) ?_
  intro cid2 c2 hc2 hr2 hf2
  by_cases h : cid2 = 0
  · subst h
    rw [show c8_example_state.campaigns 0 = some c8_example_campaign from rfl] at hc2
    injection hc2 with h2
    rw [← h2] at hf2
    exact absurd hf2 (by decide)
  · rw [show c8_example_state.campaigns cid2 = (if cid2 = 0 then some c8_example_campaign else none) from rfl] at hc2
    rw [if_neg h] at hc2
    exact Option.noConfusion hc2

/-- Active campaign 0 of the distribution counterexample: one donation of
1000000, assigned to round 0, no stored matching amount. -/
def c8_cex_campaign0 : Campaign :=
  { id := 0, owner := 1, title := "a", description := "d", goal := 10
    raised := 1000000, deadline := 4000000, state := .Active, beneficiary := 1
    donation_count := 1, matching_round := some 0, matching_amount := 0
    milestones := [], uses_milestones := false }

/-- Failed campaign 1 of the distribution counterexample: the same donation
and round, but `Failed`, so the distribution skips it while the estimate's
total still counts its score. -/
def c8_cex_campaign1 : Campaign :=
  { id := 1, owner := 2, title := "b", description := "d", goal := 10000000000
    raised := 1000000, deadline := 4000000, state := .Failed, beneficiary := 2
    donation_count := 1, matching_round := some 0, matching_amount := 0
    milestones := [], uses_milestones := false }

/-- Round of the distribution counterexample: pool 1000000, ended,
undistributed. -/
def c8_cex_round : MatchingRound :=
  { id := 0, pool_amount := 1000000, end_time := 10, distributed := false
    campaign_ids := [0, 1] }

/-- Two-campaign state in which the Failed campaign still scores 1000000:
the estimate's unfiltered total double-counts it. -/
def c8_cex_state : Platform :=
  { new 9 with
      campaigns := mapInsert (mapInsert (fun _ => none) 0 (some c8_cex_campaign0)) 1 (some c8_cex_campaign1)
      campaign_donations := mapInsert (mapInsert (fun _ => []) 0 [{ donor := 7, amount := 1000000, timestamp := 1 }]) 1 [{ donor := 8, amount := 1000000, timestamp := 2 }]
      campaign_count := 2
      matching_rounds := mapInsert (fun _ => none) 0 (some c8_cex_round) }

/-- On a passing admin call over an ended undistributed round, the stored
campaigns after `calculate_and_distribute_matching` are those left by the
conditional score-write pass. -/
theorem calculate_and_distribute_campaigns (env : Env) (s : Platform) (round_id : ℕ)
    (round : MatchingRound)
    (hadmin : env.caller = s.admin)
    (hround : s.matching_rounds round_id = some round)
    (hnd : round.distributed = false)
    (htime : round.end_time ≤ env.block_timestamp)
    (cid : ℕ) :
    (calculate_and_distribute_matching env s round_id).state.campaigns cid
      = (if (distribute_scores s round_id).2 > 0
         then distribute_write round.pool_amount (distribute_scores s round_id).2
                (distribute_scores s round_id).1 s
         else s).campaigns cid := by
  unfold calculate_and_distribute_matching
  rw [if_neg (fun h => h hadmin), hround]
  dsimp only
  rw [if_neg (by rw [hnd]; exact Bool.false_ne_true), if_neg (by omega)]
  dsimp only
  rw [apply_ite (fun st : Platform => st.campaigns cid)]
  dsimp only
  rw [ite_self]

/-- C8 counterexample: with a Failed in-round campaign of positive score,
the estimate divides the pool by the unfiltered score total (2000000) and
returns 500000, while the distribution divides by the filtered total
(1000000) and assigns 1000000 — the estimate does not match. -/
theorem c8_counterexample :
    get_estimated_matching c8_cex_state 0 = 500000 ∧
    (calculate_and_distribute_matching env_dist c8_cex_state 0).state.campaigns 0
      = some { c8_cex_campaign0 with matching_amount := 1000000 } ∧
    (500000 : ℕ) ≠ 1000000 := by
  have hc0 : c8_cex_state.campaigns 0 = some c8_cex_campaign0 := rfl
  have hc1 : c8_cex_state.campaigns 1 = some c8_cex_campaign1 := rfl
  have hmap0 : (c8_cex_state.campaign_donations 0).map (fun d => sqrt_nat d.amount)
      = [sqrt_nat 1000000] := by
    simp [c8_cex_state, mapInsert, new]
  have hmap1 : (c8_cex_state.campaign_donations 1).map (fun d => sqrt_nat d.amount)
      = [sqrt_nat 1000000] := by
    simp [c8_cex_state, mapInsert, new]
  have h0 : calculate_qf_score c8_cex_state 0 = 1000000 := by
    rw [calculate_qf_score_eq _ _ (by rw [hmap0, sqrt_1000000]; norm_num [U128])]
    rw [hmap0, sqrt_1000000]
    norm_num
  have h1 : calculate_qf_score c8_cex_state 1 = 1000000 := by
    rw [calculate_qf_score_eq _ _ (by rw [hmap1, sqrt_1000000]; norm_num [U128])]
    rw [hmap1, sqrt_1000000]
    norm_num
  have hrange : List.range c8_cex_state.campaign_count = [0, 1] := rfl
  have hmr : c8_cex_state.matching_rounds 0 = some c8_cex_round := rfl
  have hds : distribute_scores c8_cex_state 0 = ([(0, 1000000)], 1000000) := by
    simp only [distribute_scores, hrange, List.foldl_cons, List.foldl_nil, hc0, hc1, h0, h1]
    decide
  refine ⟨?_, ?_, by norm_num⟩
  · simp only [get_estimated_matching, hc0, hrange, List.foldl_cons, List.foldl_nil,
      hc1, h0, h1]
    decide
  · rw [calculate_and_distribute_campaigns env_dist c8_cex_state 0 c8_cex_round rfl hmr
      rfl (by decide) 0]
    rw [hds]
    dsimp only
    rw [if_pos (show (1000000 : ℕ) > 0 from by norm_num)]
    unfold distribute_write
    dsimp only
    rw [hc0]
    dsimp only
    unfold distribute_write
    dsimp only
    rw [mapInsert_self]
    norm_num [wrap128, U128, c8_cex_round]

end DotNation
